import Mathlib

/-!
Shallow embedding of the segment-scan engine of
`be/src/olap/rowset/segment_reader.cpp` (Doris OLAP read path), together with
proofs of properties of the row-group pruning engine, index loading, and the
block-scan state machine.

External collaborators (index readers, column decoders, the shared LRU cache,
file I/O, decompression) are abstracted as oracle functions supplied in the
environment records; everything the scan engine itself computes (offsets,
dispositions, counters, control flow) is translated from the source.
-/

namespace SegmentReader

/-- The tri-state per-block disposition / delete-evaluation result,
`DelCondSatisfied` in the source (`DEL_SATISFIED = 0`, `DEL_NOT_SATISFIED = 1`,
`DEL_PARTIAL_SATISFIED = 2`). `DEL_SATISFIED` on a block means the block is
fully deleted (Excluded); `DEL_NOT_SATISFIED` means Include;
`DEL_PARTIAL_SATISFIED` means RequiresRowFilter. -/
inductive DelCondSatisfied where
  | DEL_SATISFIED
  | DEL_NOT_SATISFIED
  | DEL_PARTIAL_SATISFIED
deriving DecidableEq, Repr

export DelCondSatisfied (DEL_SATISFIED DEL_NOT_SATISFIED DEL_PARTIAL_SATISFIED)

/-- The `OLAPStatus` codes that appear in the embedded fragment of the source.
`OLAP_ERR_OTHER` stands for any status distinct from the named ones (e.g. an
error bubbled up from a collaborator). -/
inductive OLAPStatus where
  | OLAP_SUCCESS
  | OLAP_ERR_INPUT_PARAMETER_ERROR
  | OLAP_ERR_FILE_FORMAT_ERROR
  | OLAP_ERR_MALLOC_ERROR
  | OLAP_ERR_COLUMN_STREAM_EOF
  | OLAP_ERR_DATA_EOF
  | OLAP_ERR_COLUMN_SEEK_ERROR
  | OLAP_ERR_OTHER
deriving DecidableEq, Repr

/-- `static const uint32_t MIN_FILTER_BLOCK_NUM = 10;` (segment_reader.cpp:33) -/
def MIN_FILTER_BLOCK_NUM : Int := 10

/-- One column predicate of a delete condition
(`delete_condition.del_cond->columns()` entries).  `in_segment` models
`_unique_id_to_segment_id_map.count(unique_column_id) != 0` for the column;
`del_eval j` abstracts `i.second->del_eval(index_reader->entry(j)
.column_statistic().pair())`, the per-block three-way delete evaluation
performed by the collaborator `Cond::del_eval` against the zone-map entry of
block `j`. -/
structure DeleteColumn where
  in_segment : Bool
  del_eval : Nat → DelCondSatisfied

/-- One delete condition of the delete handler
(`_delete_handler->get_delete_conditions()` entries). -/
structure DeleteCondition where
  filter_version : Int
  columns : List DeleteColumn

/-- One user-predicate column of `_conditions->columns()`.
`aggregation_none` models `_get_aggregation_by_index(i.first) ==
OLAP_FIELD_AGGREGATION_NONE`; `in_segment` models the segment-local mapping
check; `eval_zone j` abstracts
`i.second->eval(index_reader->entry(j).column_statistic().pair())`. -/
structure CondColumn where
  aggregation_none : Bool
  in_segment : Bool
  eval_zone : Nat → Bool

/-- One bloom-filter column of `_load_bf_columns`, with the checks done on it
in the bloom-filter pass of `_pick_row_groups`; `eval_bf j` abstracts
`_conditions->columns().at(i)->eval(bf_reader->entry(j))`. -/
structure BfColumn where
  aggregation_none : Bool
  in_segment : Bool
  eval_bf : Nat → Bool

/-- Static per-segment data consumed by `_pick_row_groups` and its callees.
`delete_conditions = []` also models `_delete_handler->empty()`;
`cond_columns = []` models `nullptr == _conditions ||
_conditions->columns().size() == 0`. -/
structure PickEnv where
  block_count : Nat
  num_rows_in_block : Int
  number_of_rows : Int
  version_first : Int
  delete_status : DelCondSatisfied
  delete_conditions : List DeleteCondition
  cond_columns : List CondColumn
  bf_columns : List BfColumn

/-- The mutable state touched by the pruning engine: the `_include_blocks`
disposition array, the `_remain_block` counter (a `uint32_t` in the source;
modelled as `Int` — the proofs below show it never leaves `[0, range size]`
during a pick, so no wraparound occurs), and the two filtered-row statistics
counters. -/
structure PruneState where
  include_blocks : List DelCondSatisfied
  remain_block : Int
  rows_del_filtered : Int
  rows_stats_filtered : Int
deriving DecidableEq, Repr

/-- The block range iterated by the `for (int64_t j = first_block;
j <= last_block; ++j)` loops: `[first, first+1, ..., last]`
(empty when `last + 1 ≤ first`). -/
def blockRange (first last : Nat) : List Nat :=
  List.range' first (last + 1 - first)

/-- The per-row-count bucketing used by all three filtered-row statistics
updates: a full block's rows, or the final block's remainder
(`j < _block_count - 1 ? _num_rows_in_block
: number_of_rows() - j * _num_rows_in_block`). -/
def statRows (p : PickEnv) (j : Nat) : Int :=
  if (j : Int) < (p.block_count : Int) - 1 then p.num_rows_in_block
  else p.number_of_rows - (j : Int) * p.num_rows_in_block

/-- The inner column loop of `_pick_delete_row_groups` for one block `j`
(segment_reader.cpp:384-402): accumulates the `del_partial_satisfied` /
`del_not_satisfied` flags, breaking out of the loop on the first
`DEL_NOT_SATISFIED` column.  Columns without a segment-local mapping are
skipped (`continue`). Returns `(del_partial_satisfied, del_not_satisfied)`. -/
def evalDeleteCols : List DeleteColumn → Nat → Bool → Bool → Bool × Bool
  | [], _, dp, dn => (dp, dn)
  | c :: cs, j, dp, dn =>
    if c.in_segment = false then evalDeleteCols cs j dp dn
    else
      match c.del_eval j with
      | DEL_SATISFIED => evalDeleteCols cs j dp dn
      | DEL_PARTIAL_SATISFIED => evalDeleteCols cs j true dn
      | DEL_NOT_SATISFIED => (dp, true)

/-- The three-way outcome of one delete condition on one block, as decided by
the branch structure at segment_reader.cpp:404-425: `DEL_NOT_SATISFIED`
(NoMatch) when some column evaluated `DEL_NOT_SATISFIED` **or the condition
has zero columns**; otherwise `DEL_PARTIAL_SATISFIED` (PartialMatch) when some
column evaluated partially; otherwise `DEL_SATISFIED` (FullMatch). -/
def deleteConditionOutcome (dc : DeleteCondition) (j : Nat) : DelCondSatisfied :=
  if (evalDeleteCols dc.columns j false false).2 = true ∨ dc.columns.length = 0 then
    DEL_NOT_SATISFIED
  else if (evalDeleteCols dc.columns j false false).1 = true then DEL_PARTIAL_SATISFIED
  else DEL_SATISFIED

/-- The per-block body of the delete-condition loop
(segment_reader.cpp:379-425): skip blocks already `DEL_SATISFIED`; otherwise
evaluate the condition's columns and apply the outcome to
`_include_blocks[j]`, decrementing `_remain_block` and bucketing
`rows_del_filtered` on a full match, and refusing to downgrade
`DEL_PARTIAL_SATISFIED` to `DEL_NOT_SATISFIED` on a non-match. -/
def applyDeleteCondition (p : PickEnv) (dc : DeleteCondition) (j : Nat)
    (s : PruneState) : PruneState :=
  if s.include_blocks.getD j DEL_SATISFIED = DEL_SATISFIED then s
  else
    if (evalDeleteCols dc.columns j false false).2 = true ∨ dc.columns.length = 0 then
      if s.include_blocks.getD j DEL_SATISFIED = DEL_PARTIAL_SATISFIED then s
      else { s with include_blocks := s.include_blocks.set j DEL_NOT_SATISFIED }
    else if (evalDeleteCols dc.columns j false false).1 = true then
      { s with include_blocks := s.include_blocks.set j DEL_PARTIAL_SATISFIED }
    else
      { s with include_blocks := s.include_blocks.set j DEL_SATISFIED,
               remain_block := s.remain_block - 1,
               rows_del_filtered := s.rows_del_filtered + statRows p j }

/-- `SegmentReader::_pick_delete_row_groups` (segment_reader.cpp:361-430):
skip entirely when the delete handler is empty or the segment is statically
known not to satisfy any delete condition; otherwise apply each delete
condition whose `filter_version` is newer than the segment group's first
version to every block of the range, in order. -/
def _pick_delete_row_groups (p : PickEnv) (first last : Nat)
    (s : PruneState) : PruneState :=
  if p.delete_conditions.isEmpty then s
  else if DEL_NOT_SATISFIED = p.delete_status then s
  else
    p.delete_conditions.foldl
      (fun s dc =>
        if dc.filter_version ≤ p.version_first then s
        else (blockRange first last).foldl
          (fun s j => applyDeleteCondition p dc j s) s)
      s

/-- The shared per-block body of the zone-map pass (segment_reader.cpp:483-499)
and the bloom-filter pass (segment_reader.cpp:522-537): skip blocks already
`DEL_SATISFIED`; otherwise, if the predicate evaluation `ev j` fails, set the
block to `DEL_SATISFIED`, decrement `_remain_block` and bucket
`rows_stats_filtered`. -/
def condBlockStep (p : PickEnv) (ev : Nat → Bool) (s : PruneState)
    (j : Nat) : PruneState :=
  if s.include_blocks.getD j DEL_SATISFIED = DEL_SATISFIED then s
  else if ev j then s
  else
    { s with include_blocks := s.include_blocks.set j DEL_SATISFIED,
             remain_block := s.remain_block - 1,
             rows_stats_filtered := s.rows_stats_filtered + statRows p j }

/-- The zone-map predicate pass of `_pick_row_groups`
(segment_reader.cpp:470-500): for each condition column that is
value-aggregation-free and present in the segment, evaluate its predicate
against every non-excluded block's zone-map entry. -/
def zoneMapPhase (p : PickEnv) (first last : Nat) (s : PruneState) : PruneState :=
  p.cond_columns.foldl
    (fun s c =>
      if c.aggregation_none = false then s
      else if c.in_segment = false then s
      else (blockRange first last).foldl (condBlockStep p c.eval_zone) s)
    s

/-- The bloom-filter pass of `_pick_row_groups` (segment_reader.cpp:509-538):
same structure as the zone-map pass, over the bloom-filter column set. -/
def bloomFilterPhase (p : PickEnv) (first last : Nat) (s : PruneState) : PruneState :=
  p.bf_columns.foldl
    (fun s c =>
      if c.aggregation_none = false then s
      else if c.in_segment = false then s
      else (blockRange first last).foldl (condBlockStep p c.eval_bf) s)
    s

/-- `SegmentReader::_init_include_blocks` (segment_reader.cpp:432-445):
allocate `_include_blocks[_block_count]`, `memset` it to 0 (`DEL_SATISFIED`)
and `memset` positions `[first_block, first_block + _remain_block)` to 1
(`DEL_NOT_SATISFIED`).  The two `memset`s are rendered pointwise; the source
requires `first_block + _remain_block ≤ _block_count` for the second `memset`
to stay in bounds, which the caller guarantees by setting
`_remain_block = last_block - first_block + 1` with `last_block <
_block_count`. -/
def _init_include_blocks (p : PickEnv) (first : Nat) (s : PruneState) : PruneState :=
  let blocks := (List.range p.block_count).map
    (fun j => if first ≤ j ∧ j < first + s.remain_block.toNat
              then DEL_NOT_SATISFIED else DEL_SATISFIED)
  { s with include_blocks := blocks }

/-- `SegmentReader::_pick_row_groups` (segment_reader.cpp:447-543): reject
`first_block > last_block` with `OLAP_ERR_INPUT_PARAMETER_ERROR`; otherwise
initialize the disposition array, run the delete-condition pass, return early
when there are no user predicates, run the zone-map pass, and run the
bloom-filter pass only when at least `MIN_FILTER_BLOCK_NUM` blocks remain. -/
def _pick_row_groups (p : PickEnv) (first last : Nat)
    (s : PruneState) : Except OLAPStatus PruneState :=
  if first > last then .error .OLAP_ERR_INPUT_PARAMETER_ERROR
  else
    let s1 := _init_include_blocks p first s
    let s2 := _pick_delete_row_groups p first last s1
    if p.cond_columns.isEmpty then .ok s2
    else
      let s3 := zoneMapPhase p first last s2
      if s3.remain_block < MIN_FILTER_BLOCK_NUM then .ok s3
      else .ok (bloomFilterPhase p first last s3)

/-- The pruning entry as invoked from `SegmentReader::seek_to_block`
(segment_reader.cpp:257-268): `_remain_block = last_block - first_block + 1;`
followed by `_pick_row_groups(first_block, last_block)` (the previous
`_include_blocks` array was just deleted; `_init_include_blocks` rebuilds it,
so its prior contents are irrelevant and are modelled as `[]`). -/
def seek_pick_row_groups (p : PickEnv) (first last : Nat) :
    Except OLAPStatus PruneState :=
  _pick_row_groups p first last
    { include_blocks := []
      remain_block := (last : Int) - (first : Int) + 1
      rows_del_filtered := 0
      rows_stats_filtered := 0 }

/-! ### Index loading (`_load_index`, segment_reader.cpp:563-707)

The stream walk of `_load_index` (and the identical offset accumulation of
`_read_all_data_streams`, segment_reader.cpp:709-754) is embedded below.
File reads, the LRU cache and the index-reader parsers are collaborators;
their outcomes are supplied by an `IndexOracle` keyed by the stream's
position in the header's descriptor list. -/

/-- The stream kinds distinguished by `_load_index`
(`StreamInfoMessage::Kind`); every kind other than `ROW_INDEX` and
`BLOOM_FILTER` (DATA, PRESENT, ...) behaves identically there and is
collapsed into `OTHER_KIND`. -/
inductive StreamKind where
  | ROW_INDEX
  | BLOOM_FILTER
  | OTHER_KIND
deriving DecidableEq, Repr

/-- One stream descriptor of the segment header
(`_header_message().stream_info(i)`): byte length, owning column's unique id,
and kind. -/
structure StreamInfoMessage where
  length : Nat
  column_unique_id : Nat
  kind : StreamKind
deriving DecidableEq, Repr

/-- Outcomes of the collaborator calls made for stream index `i`:
`cache_hit i` models `_lru_cache->lookup(key) != nullptr`; `read_result i`
the `stream.read_all` status on a miss; `parse_result i` the
`StreamIndexReader::init` / `BloomFilterIndexReader::init` status;
`entry_count i` the parsed reader's `entry_count()`. -/
structure IndexOracle where
  cache_hit : Nat → Bool
  read_result : Nat → OLAPStatus
  parse_result : Nat → OLAPStatus
  entry_count : Nat → Nat

/-- Static inputs of `_load_index`: the header length (base of the stream
offsets), `expected_blocks` (computed at segment_reader.cpp:582-584 as
`ceil(number_of_rows() / num_rows_per_block())` in floating point; taken here
as a given header-derived number), the descriptor list, and the column sets
(`_unique_id_to_segment_id_map`, `_is_column_included`,
`_is_bf_column_included`). -/
structure LoadIndexEnv where
  header_length : Nat
  expected_blocks : Nat
  streams : List StreamInfoMessage
  in_segment : Nat → Bool
  is_column_included : Nat → Bool
  is_bf_column_included : Nat → Bool

/-- Bookkeeping recorded for each needed stream actually processed: the
stream's index and computed byte offset, whether the cache lookup hit,
whether the read buffer was inserted into the cache
(segment_reader.cpp:639-647), and whether the engine kept direct ownership of
the buffer (miss and no insertion). -/
structure StreamRecord where
  stream_index : Nat
  offset : Nat
  hit : Bool
  inserted : Bool
  engine_owns : Bool
deriving DecidableEq, Repr, Inhabited

/-- The loop state of `_load_index`: `_block_count` (overwritten by each
parsed structure), the **local** `is_using_cache` flag (note: flipped to
`true` by any cache hit, segment_reader.cpp:617), and the records of the
needed streams processed so far. -/
structure LoadIndexState where
  block_count : Nat
  is_using_cache : Bool
  processed : List StreamRecord
deriving DecidableEq, Repr

/-- Whether `_load_index` processes a stream rather than `continue`-ing past
it (segment_reader.cpp:593-603): the column must have a segment-local
mapping, and the stream must be a zone-map (`ROW_INDEX`) stream of a
projected column or a `BLOOM_FILTER` stream of a bloom-filter column. -/
def neededStream (env : LoadIndexEnv) (m : StreamInfoMessage) : Bool :=
  env.in_segment m.column_unique_id &&
    ((env.is_column_included m.column_unique_id &&
        decide (m.kind = StreamKind.ROW_INDEX)) ||
     (env.is_bf_column_included m.column_unique_id &&
        decide (m.kind = StreamKind.BLOOM_FILTER)))

/-- The loop of `_load_index` (segment_reader.cpp:585-703) over the
(position-enumerated) descriptor list, carrying `stream_offset` (incremented
by every descriptor's length, needed or not).  For a needed stream: look up
the cache; on a hit flip `is_using_cache`; on a miss read the stream (any
read failure becomes `OLAP_ERR_FILE_FORMAT_ERROR`, line 636) and insert the
buffer into the cache iff `is_using_cache` currently holds; parse the reader
(failures propagate their own status); then require the parsed
`entry_count` to equal `expected_blocks`, else
`OLAP_ERR_FILE_FORMAT_ERROR`.  Buffer allocation is assumed to succeed (its
failure is `OLAP_ERR_MALLOC_ERROR` in the source), and a failed cache
insertion, which `LOG(FATAL)`s (aborting the process, line 645), is not
modelled. -/
def loadIndexGo (env : LoadIndexEnv) (orc : IndexOracle) :
    List (Nat × StreamInfoMessage) → Nat → LoadIndexState →
      Except OLAPStatus LoadIndexState
  | [], _, st => .ok st
  | (i, m) :: rest, off, st =>
    if neededStream env m = false then loadIndexGo env orc rest (off + m.length) st
    else
      if orc.cache_hit i = false ∧ orc.read_result i ≠ .OLAP_SUCCESS then
        .error .OLAP_ERR_FILE_FORMAT_ERROR
      else if orc.parse_result i ≠ .OLAP_SUCCESS then .error (orc.parse_result i)
      else if orc.entry_count i ≠ env.expected_blocks then
        .error .OLAP_ERR_FILE_FORMAT_ERROR
      else
        loadIndexGo env orc rest (off + m.length)
          { block_count := orc.entry_count i
            is_using_cache := st.is_using_cache || orc.cache_hit i
            processed := st.processed ++
              [{ stream_index := i, offset := off, hit := orc.cache_hit i,
                 inserted := !(orc.cache_hit i) && st.is_using_cache,
                 engine_owns := !(orc.cache_hit i) && !st.is_using_cache }] }

/-- `SegmentReader::_load_index(is_using_cache)`: run the stream walk from
`stream_offset = _header_length` with `_block_count = 0` and no processed
streams. -/
def _load_index (env : LoadIndexEnv) (orc : IndexOracle) (is_using_cache : Bool) :
    Except OLAPStatus LoadIndexState :=
  loadIndexGo env orc env.streams.enum env.header_length
    { block_count := 0, is_using_cache := is_using_cache, processed := [] }

/-- The offsets assigned to the descriptors by the shared accumulation
pattern of `_load_index` and `_read_all_data_streams`
(`stream_offset += stream_length` in the loop increment, executed for every
descriptor whether or not it is skipped). -/
def streamOffsetsFrom : Nat → List StreamInfoMessage → List Nat
  | _, [] => []
  | off, m :: rest => off :: streamOffsetsFrom (off + m.length) rest

/-- Offsets of all descriptors, starting at the header length. -/
def streamOffsets (header_length : Nat) (streams : List StreamInfoMessage) :
    List Nat :=
  streamOffsetsFrom header_length streams

/-! ### Block scan state machine (`seek_to_block` / `get_block`,
segment_reader.cpp:230-313, 786-888)

Per-column decoders are collaborators; the status of
`_column_readers[cid]->seek(...)` at a given block and of
`reader->next_vector(...)` at the current position are supplied by oracle
functions in `ScanEnv`. -/

/-- Static inputs of the scan: segment shape, the batch's capacity
(`batch->limit()`) and column list (`batch->columns()`), the column-index
presence check `_column_indices[cid] != nullptr`, and the per-column
collaborator outcomes. -/
structure ScanEnv where
  block_count : Nat
  num_rows_in_block : Int
  number_of_rows : Int
  batch_limit : Int
  columns : List Nat
  has_column_index : Nat → Bool
  seek_result : Nat → Int → OLAPStatus
  next_vector_result : Nat → Int → OLAPStatus

/-- The scan cursor and per-scan bookkeeping of `SegmentReader`:
`_eof`, `_next_block_id`, `_current_block_id`, `_need_to_seek_block`,
`_without_filter`, `_end_block`, the optional `_include_blocks` array
(`none` models the `nullptr` it holds when filtering is off), and the
`blocks_load` / `raw_rows_read` statistics. -/
structure ScanState where
  eof : Bool
  next_block_id : Int
  current_block_id : Int
  need_to_seek_block : Bool
  without_filter : Bool
  end_block : Int
  include_blocks : Option (List DelCondSatisfied)
  blocks_load : Int
  raw_rows_read : Int
deriving DecidableEq, Repr

/-- The per-column loop of `_seek_to_block_directly`
(segment_reader.cpp:793-817): skip columns without a column index (schema
evolution); on the first failing seek, map `OLAP_ERR_COLUMN_STREAM_EOF` to
the non-fatal `OLAP_ERR_DATA_EOF` and every other failure to
`OLAP_ERR_COLUMN_SEEK_ERROR`. -/
def seekColumns (env : ScanEnv) (block_id : Int) : List Nat → OLAPStatus
  | [] => .OLAP_SUCCESS
  | cid :: rest =>
    if env.has_column_index cid = false then seekColumns env block_id rest
    else
      match env.seek_result cid block_id with
      | .OLAP_SUCCESS => seekColumns env block_id rest
      | .OLAP_ERR_COLUMN_STREAM_EOF => .OLAP_ERR_DATA_EOF
      | _ => .OLAP_ERR_COLUMN_SEEK_ERROR

/-- `SegmentReader::_seek_to_block_directly` (segment_reader.cpp:786-821):
skip entirely when no re-seek is forced and the target block is the current
one; otherwise seek every requested column, and only on overall success
update `_current_block_id` and clear `_need_to_seek_block` (on failure the
cursor fields are left untouched). -/
def _seek_to_block_directly (env : ScanEnv) (block_id : Int) (cids : List Nat)
    (s : ScanState) : OLAPStatus × ScanState :=
  if s.need_to_seek_block = false ∧ block_id = s.current_block_id then
    (.OLAP_SUCCESS, s)
  else
    match seekColumns env block_id cids with
    | .OLAP_SUCCESS =>
      (.OLAP_SUCCESS,
       { s with current_block_id := block_id, need_to_seek_block := false })
    | st => (st, s)

/-- The `while` loop of `SegmentReader::_seek_to_block`
(segment_reader.cpp:848-850): advance past blocks marked `DEL_SATISFIED`
while within the end block. -/
def skipExcluded (blocks : List DelCondSatisfied) (end_block : Int)
    (block_id : Int) : Int :=
  if h : block_id ≤ end_block ∧
      blocks.getD block_id.toNat DEL_SATISFIED = DEL_SATISFIED then
    skipExcluded blocks end_block (block_id + 1)
  else block_id
termination_by (end_block + 1 - block_id).toNat
decreasing_by omega

/-- `SegmentReader::_seek_to_block` (segment_reader.cpp:846-856): compute the
next block (skipping excluded blocks when a disposition array exists and
filtering is on), set `_eof` when it runs past `_end_block`, and store it in
`_next_block_id`. -/
def _seek_to_block (block_id0 : Int) (without_filter : Bool)
    (s : ScanState) : ScanState :=
  let block_id :=
    match s.include_blocks with
    | some blocks =>
      if without_filter = false then skipExcluded blocks s.end_block block_id0
      else block_id0
    | none => block_id0
  { s with next_block_id := block_id,
           eof := if block_id > s.end_block then true else s.eof }

/-- The per-column loop of `_load_to_vectorized_row_batch`
(segment_reader.cpp:861-869): the first failing `next_vector` aborts the call
with its status. -/
def loadColumns (env : ScanEnv) (current : Int) : List Nat → OLAPStatus
  | [] => .OLAP_SUCCESS
  | cid :: rest =>
    match env.next_vector_result cid current with
    | .OLAP_SUCCESS => loadColumns env current rest
    | st => st

/-- What `_load_to_vectorized_row_batch` leaves in the output batch:
`batch->set_size(size)` and `batch->set_block_status(...)`. -/
structure BatchResult where
  size : Int
  block_status : DelCondSatisfied
deriving DecidableEq, Repr

/-- `SegmentReader::_load_to_vectorized_row_batch` (segment_reader.cpp:
858-888): decode `size` rows of every batch column (any failure propagates
and leaves the state untouched), tag the batch with the current block's
disposition (`DEL_PARTIAL_SATISFIED` when no disposition array exists),
advance `_current_block_id` when a full block was read and otherwise force a
re-seek, and bump the `blocks_load` / `raw_rows_read` statistics.  The
source's two sequential conditional mutations are written here as one
structure update with the same result. -/
def _load_to_vectorized_row_batch (env : ScanEnv) (size : Int) (s : ScanState) :
    OLAPStatus × ScanState × Option BatchResult :=
  match loadColumns env s.current_block_id env.columns with
  | .OLAP_SUCCESS =>
    (.OLAP_SUCCESS,
     { s with
        current_block_id := if size = env.num_rows_in_block then
            s.current_block_id + 1
          else s.current_block_id,
        need_to_seek_block := if size = env.num_rows_in_block then
            s.need_to_seek_block
          else true,
        blocks_load := s.blocks_load + 1,
        raw_rows_read := s.raw_rows_read + size },
     some { size := size,
            block_status :=
              match s.include_blocks with
              | some blocks => blocks.getD s.current_block_id.toNat DEL_SATISFIED
              | none => DEL_PARTIAL_SATISFIED })
  | st => (st, s, none)

/-- The outputs `get_block` hands back through `*next_block_id`, `*eof`, its
return status, and the batch. -/
structure GetBlockOut where
  status : OLAPStatus
  next_block_id : Int
  eof : Bool
  batch : Option BatchResult
deriving DecidableEq, Repr

/-- `SegmentReader::get_block` (segment_reader.cpp:286-313): no-op at EOF;
otherwise lazily seek to `_next_block_id` — **the returned status of
`_seek_to_block_directly` is discarded at segment_reader.cpp:293; only its
state effects survive** — compute the rows to load (truncated on the final
block to `number_of_rows() - _num_rows_in_block * _current_block_id`),
delegate to the batch loader (whose failure does propagate), then advance to
the next non-excluded block. -/
def get_block (env : ScanEnv) (s : ScanState) : GetBlockOut × ScanState :=
  if s.eof = true then
    ({ status := .OLAP_SUCCESS, next_block_id := s.next_block_id, eof := true,
       batch := none }, s)
  else
    let s1 := (_seek_to_block_directly env s.next_block_id env.columns s).2
    let num_rows_load :=
      if s1.current_block_id = (env.block_count : Int) - 1 then
        min env.batch_limit
          (env.number_of_rows - env.num_rows_in_block * s1.current_block_id)
      else env.batch_limit
    match _load_to_vectorized_row_batch env num_rows_load s1 with
    | (.OLAP_SUCCESS, s2, batch) =>
      let s3 := _seek_to_block (s2.next_block_id + 1) s2.without_filter s2
      ({ status := .OLAP_SUCCESS, next_block_id := s3.next_block_id,
         eof := s3.eof, batch := batch }, s3)
    | (st, s2, _) =>
      ({ status := st, next_block_id := s2.next_block_id, eof := s2.eof,
         batch := none }, s2)

/-- Iterated `get_block` calls (the scan loop driven by the caller). -/
def runScan (env : ScanEnv) : Nat → ScanState → ScanState
  | 0, s => s
  | n + 1, s => runScan env n (get_block env s).2

/-- The scan state `seek_to_block(0, block_count - 1, without_filter = true)`
establishes for a full unfiltered scan (segment_reader.cpp:250-283, with at
least one block): cursor reset, clamped end block, no disposition array,
forced re-seek; `_current_block_id` keeps whatever value the previous scan
left (`c0`). -/
def scanStart (env : ScanEnv) (c0 : Int) : ScanState :=
  { eof := false
    next_block_id := 0
    current_block_id := c0
    need_to_seek_block := true
    without_filter := true
    end_block := (env.block_count : Int) - 1
    include_blocks := none
    blocks_load := 0
    raw_rows_read := 0 }

/-! ### List helper lemmas -/

theorem getD_set_self {α : Type} {l : List α} {i : Nat} {v d : α}
    (h : i < l.length) : (l.set i v).getD i d = v := by
  simp [List.getD_eq_getElem?_getD, List.getElem?_set, h]

theorem getD_set_ne {α : Type} {l : List α} {i j : Nat} {v d : α}
    (h : i ≠ j) : (l.set i v).getD j d = l.getD j d := by
  simp [List.getD_eq_getElem?_getD, List.getElem?_set, h]

theorem getD_range_map {α : Type} (f : Nat → α) (n j : Nat) (d : α) :
    ((List.range n).map f).getD j d = if j < n then f j else d := by
  by_cases h : j < n
  · simp [List.getD_eq_getElem?_getD, List.getElem?_map, List.getElem?_range h, h]
  · have hlen : ((List.range n).map f).length ≤ j := by
      simpa [List.length_range] using Nat.le_of_not_lt h
    simp [List.getD_eq_getElem?_getD, List.getElem?_eq_none hlen, h]

theorem mem_blockRange {first last j : Nat} :
    j ∈ blockRange first last ↔ first ≤ j ∧ j < last + 1 := by
  unfold blockRange
  rw [List.mem_range'_1]
  omega

/-! ### The shape of one per-block pruning update

Every per-block update performed by the three pruning passes either leaves
the state untouched, or rewrites position `j` of the disposition array: to a
non-excluded value without touching the counter, or to `DEL_SATISFIED`
(Excluded) with a decrement of `_remain_block` — and it only does the latter
two when the block was not already excluded. -/

def StepShape (s s' : PruneState) (j : Nat) : Prop :=
  s' = s ∨
  (s.include_blocks.getD j DEL_SATISFIED ≠ DEL_SATISFIED ∧
    ((∃ v, v ≠ DEL_SATISFIED ∧
        s'.include_blocks = s.include_blocks.set j v ∧
        s'.remain_block = s.remain_block) ∨
      (s'.include_blocks = s.include_blocks.set j DEL_SATISFIED ∧
        s'.remain_block = s.remain_block - 1)))

theorem applyDeleteCondition_cases (p : PickEnv) (dc : DeleteCondition) (j : Nat)
    (s : PruneState) : StepShape s (applyDeleteCondition p dc j s) j := by
  unfold applyDeleteCondition StepShape
  by_cases h1 : s.include_blocks.getD j DEL_SATISFIED = DEL_SATISFIED
  · rw [if_pos h1]; exact Or.inl rfl
  · rw [if_neg h1]
    by_cases h2 : (evalDeleteCols dc.columns j false false).2 = true ∨
        dc.columns.length = 0
    · rw [if_pos h2]
      by_cases h3 : s.include_blocks.getD j DEL_SATISFIED = DEL_PARTIAL_SATISFIED
      · rw [if_pos h3]; exact Or.inl rfl
      · rw [if_neg h3]
        exact Or.inr ⟨h1, Or.inl ⟨DEL_NOT_SATISFIED, by decide, rfl, rfl⟩⟩
    · rw [if_neg h2]
      by_cases h4 : (evalDeleteCols dc.columns j false false).1 = true
      · rw [if_pos h4]
        exact Or.inr ⟨h1, Or.inl ⟨DEL_PARTIAL_SATISFIED, by decide, rfl, rfl⟩⟩
      · rw [if_neg h4]
        exact Or.inr ⟨h1, Or.inr ⟨rfl, rfl⟩⟩

theorem condBlockStep_cases (p : PickEnv) (ev : Nat → Bool) (s : PruneState)
    (j : Nat) : StepShape s (condBlockStep p ev s j) j := by
  unfold condBlockStep StepShape
  by_cases h1 : s.include_blocks.getD j DEL_SATISFIED = DEL_SATISFIED
  · rw [if_pos h1]; exact Or.inl rfl
  · rw [if_neg h1]
    by_cases h2 : ev j
    · rw [if_pos h2]; exact Or.inl rfl
    · rw [if_neg h2]
      exact Or.inr ⟨h1, Or.inr ⟨rfl, rfl⟩⟩

theorem stepShape_length {s s' : PruneState} {j : Nat} (hs : StepShape s s' j) :
    s'.include_blocks.length = s.include_blocks.length := by
  unfold StepShape at hs
  rcases hs with rfl | ⟨_, ⟨v, _, hset, _⟩ | ⟨hset, _⟩⟩
  · rfl
  · rw [hset, List.length_set]
  · rw [hset, List.length_set]

theorem stepShape_remain_le {s s' : PruneState} {j : Nat} (hs : StepShape s s' j) :
    s'.remain_block ≤ s.remain_block := by
  unfold StepShape at hs
  rcases hs with rfl | ⟨_, ⟨v, _, _, hr⟩ | ⟨_, hr⟩⟩
  · exact le_refl _
  · rw [hr]
  · rw [hr]; omega

theorem stepShape_sat_absorb {s s' : PruneState} {j j' : Nat}
    (hs : StepShape s s' j)
    (h : s.include_blocks.getD j' DEL_SATISFIED = DEL_SATISFIED) :
    s'.include_blocks.getD j' DEL_SATISFIED = DEL_SATISFIED := by
  unfold StepShape at hs
  rcases hs with rfl | ⟨hne, hrest⟩
  · exact h
  · have hjj : j ≠ j' := by
      intro e; exact hne (by rw [e]; exact h)
    rcases hrest with ⟨v, _, hset, _⟩ | ⟨hset, _⟩ <;>
      rw [hset, getD_set_ne hjj] <;> exact h

theorem stepShape_remain_delta {s s' : PruneState} {j : Nat}
    (hs : StepShape s s' j) (hlen : j < s.include_blocks.length) :
    s'.remain_block = s.remain_block -
      (if s.include_blocks.getD j DEL_SATISFIED ≠ DEL_SATISFIED ∧
          s'.include_blocks.getD j DEL_SATISFIED = DEL_SATISFIED then 1 else 0) := by
  unfold StepShape at hs
  rcases hs with rfl | ⟨hne, ⟨v, hv, hset, hr⟩ | ⟨hset, hr⟩⟩
  · rw [if_neg]
    · omega
    · rintro ⟨h1, h2⟩; exact h1 h2
  · rw [hr, if_neg]
    · omega
    · rintro ⟨_, h2⟩
      rw [hset, getD_set_self hlen] at h2
      exact hv h2
  · rw [hr, if_pos ⟨hne, by rw [hset, getD_set_self hlen]⟩]

/-! ### Conservation of `_remain_block` plus the excluded-block count -/

/-- The number of blocks of the requested range currently `DEL_SATISFIED`
(Excluded). -/
def excludedCount (l : List DelCondSatisfied) (first last : Nat) : Nat :=
  (blockRange first last).countP
    (fun j => decide (l.getD j DEL_SATISFIED = DEL_SATISFIED))

theorem excludedCount_set_of_ne_sat {l : List DelCondSatisfied} {j : Nat}
    {v : DelCondSatisfied} (first last : Nat) (hlen : j < l.length)
    (hv : v ≠ DEL_SATISFIED)
    (hold : l.getD j DEL_SATISFIED ≠ DEL_SATISFIED) :
    excludedCount (l.set j v) first last = excludedCount l first last := by
  unfold excludedCount
  apply List.countP_congr
  intro i _
  by_cases hij : j = i
  · subst hij
    rw [getD_set_self hlen]
    simp only [decide_eq_true_eq]
    exact iff_of_false hv hold
  · rw [getD_set_ne hij]

theorem excludedCount_set_sat {l : List DelCondSatisfied} {j first last : Nat}
    (hj : j ∈ blockRange first last) (hlen : j < l.length)
    (hold : l.getD j DEL_SATISFIED ≠ DEL_SATISFIED) :
    excludedCount (l.set j DEL_SATISFIED) first last =
      excludedCount l first last + 1 := by
  unfold excludedCount
  have hnd : (blockRange first last).Nodup := List.nodup_range' _ _
  revert hj hnd
  generalize blockRange first last = r
  intro hj hnd
  induction r with
  | nil => cases hj
  | cons a t ih =>
    have hnc := List.nodup_cons.mp hnd
    simp only [List.countP_cons]
    rcases List.mem_cons.mp hj with rfl | hjt
    · have ht : List.countP
          (fun i => decide ((l.set j DEL_SATISFIED).getD i DEL_SATISFIED = DEL_SATISFIED)) t =
          List.countP (fun i => decide (l.getD i DEL_SATISFIED = DEL_SATISFIED)) t := by
        apply List.countP_congr
        intro i hi
        have hji : j ≠ i := fun e => hnc.1 (e ▸ hi)
        rw [getD_set_ne hji]
      rw [ht, getD_set_self hlen]
      rw [if_pos (by decide), if_neg (by simp only [decide_eq_true_eq]; exact hold)]
    · have haj : a ≠ j := fun e => hnc.1 (e ▸ hjt)
      have hja : j ≠ a := fun e => haj e.symm
      rw [ih hjt hnc.2, getD_set_ne hja]
      omega

theorem stepShape_conserve {s s' : PruneState} {j first last : Nat}
    (hs : StepShape s s' j) (hj : j ∈ blockRange first last)
    (hlen : j < s.include_blocks.length) :
    s'.remain_block + (excludedCount s'.include_blocks first last : Int) =
      s.remain_block + (excludedCount s.include_blocks first last : Int) := by
  unfold StepShape at hs
  rcases hs with rfl | ⟨hne, ⟨v, hv, hset, hr⟩ | ⟨hset, hr⟩⟩
  · rfl
  · rw [hr, hset, excludedCount_set_of_ne_sat first last hlen hv hne]
  · rw [hr, hset, excludedCount_set_sat hj hlen hne]
    push_cast
    ring

/-! ### Lifting per-step facts through the pass folds -/

theorem foldl_inv {β : Type} {P : PruneState → Prop} {f : PruneState → β → PruneState} :
    ∀ (l : List β), (∀ s b, b ∈ l → P s → P (f s b)) →
      ∀ s, P s → P (l.foldl f s) := by
  intro l
  induction l with
  | nil => intro _ s hs; simpa using hs
  | cons b t ih =>
    intro h s hs
    simp only [List.foldl_cons]
    exact ih (fun s' b' hb' => h s' b' (List.mem_cons_of_mem _ hb')) _
      (h s b (List.mem_cons_self _ _) hs)

/-- The combined invariant used below: fixed disposition-array length and
conservation of `_remain_block + excludedCount`. -/
def PickInv (first last L : Nat) (C : Int) (s : PruneState) : Prop :=
  s.include_blocks.length = L ∧
  s.remain_block + (excludedCount s.include_blocks first last : Int) = C

theorem stepShape_pickInv {first last L : Nat} {C : Int} {s s' : PruneState} {j : Nat}
    (hs : StepShape s s' j) (hL : last < L) (hj : j ∈ blockRange first last)
    (hinv : PickInv first last L C s) : PickInv first last L C s' := by
  have hjlast : j ≤ last := by
    have := mem_blockRange.mp hj
    omega
  have hlen : j < s.include_blocks.length := by
    rw [hinv.1]; omega
  exact ⟨(stepShape_length hs).trans hinv.1,
    (stepShape_conserve hs hj hlen).trans hinv.2⟩

theorem blockFold_pickInv {first last L : Nat} {C : Int}
    (hL : last < L) (g : PruneState → Nat → PruneState)
    (hg : ∀ s j, StepShape s (g s j) j) :
    ∀ s, PickInv first last L C s →
      PickInv first last L C ((blockRange first last).foldl g s) :=
  foldl_inv (blockRange first last)
    (fun s j hj hs => stepShape_pickInv (hg s j) hL hj hs)

theorem deletePhase_pickInv {p : PickEnv} {first last L : Nat} {C : Int}
    (hL : last < L) (s : PruneState) (hs : PickInv first last L C s) :
    PickInv first last L C (_pick_delete_row_groups p first last s) := by
  unfold _pick_delete_row_groups
  split
  · exact hs
  · split
    · exact hs
    · refine foldl_inv (P := PickInv first last L C)
        p.delete_conditions (fun s' dc _ hs' => ?_) s hs
      split
      · exact hs'
      · exact blockFold_pickInv hL _ (fun s'' j => applyDeleteCondition_cases p dc j s'') s' hs'

theorem zonePhase_pickInv {p : PickEnv} {first last L : Nat} {C : Int}
    (hL : last < L) (s : PruneState) (hs : PickInv first last L C s) :
    PickInv first last L C (zoneMapPhase p first last s) := by
  unfold zoneMapPhase
  refine foldl_inv (P := PickInv first last L C)
    p.cond_columns (fun s' c _ hs' => ?_) s hs
  split
  · exact hs'
  · split
    · exact hs'
    · exact blockFold_pickInv hL _ (fun s'' j => condBlockStep_cases p c.eval_zone s'' j) s' hs'

theorem bloomPhase_pickInv {p : PickEnv} {first last L : Nat} {C : Int}
    (hL : last < L) (s : PruneState) (hs : PickInv first last L C s) :
    PickInv first last L C (bloomFilterPhase p first last s) := by
  unfold bloomFilterPhase
  refine foldl_inv (P := PickInv first last L C)
    p.bf_columns (fun s' c _ hs' => ?_) s hs
  split
  · exact hs'
  · split
    · exact hs'
    · exact blockFold_pickInv hL _ (fun s'' j => condBlockStep_cases p c.eval_bf s'' j) s' hs'

/-! ### The initialized disposition array -/

theorem init_include_blocks_getD (p : PickEnv) (first last : Nat) (s : PruneState)
    (hfl : first ≤ last)
    (hrem : s.remain_block = (last : Int) - (first : Int) + 1)
    (j : Nat) (hj : j < p.block_count) :
    (_init_include_blocks p first s).include_blocks.getD j DEL_SATISFIED =
      if first ≤ j ∧ j ≤ last then DEL_NOT_SATISFIED else DEL_SATISFIED := by
  unfold _init_include_blocks
  simp only
  rw [getD_range_map, if_pos hj]
  have htn : s.remain_block.toNat = last - first + 1 := by rw [hrem]; omega
  rw [htn]
  by_cases hc : first ≤ j ∧ j ≤ last
  · rw [if_pos (by omega), if_pos hc]
  · rw [if_neg (by omega), if_neg hc]

theorem init_include_blocks_length (p : PickEnv) (first : Nat) (s : PruneState) :
    (_init_include_blocks p first s).include_blocks.length = p.block_count := by
  unfold _init_include_blocks
  simp

theorem excludedCount_init (p : PickEnv) (first last : Nat) (s : PruneState)
    (hfl : first ≤ last) (hL : last < p.block_count)
    (hrem : s.remain_block = (last : Int) - (first : Int) + 1) :
    excludedCount (_init_include_blocks p first s).include_blocks first last = 0 := by
  unfold excludedCount
  rw [List.countP_eq_zero]
  intro j hj
  have hjr := mem_blockRange.mp hj
  rw [init_include_blocks_getD p first last s hfl hrem j (by omega),
    if_pos (by omega)]
  decide

/-- `_pick_row_groups` preserves `PickInv` from the freshly initialized state
to whatever state it returns. -/
theorem pick_row_groups_pickInv (p : PickEnv) (first last : Nat) (s : PruneState)
    {C : Int} (hfl : first ≤ last) (hL : last < p.block_count)
    (hinit : PickInv first last p.block_count C (_init_include_blocks p first s)) :
    ∀ sf, _pick_row_groups p first last s = .ok sf →
      PickInv first last p.block_count C sf := by
  intro sf hok
  unfold _pick_row_groups at hok
  rw [if_neg (by omega)] at hok
  simp only at hok
  have h2 := deletePhase_pickInv (p := p) hL _ hinit
  by_cases hc : p.cond_columns.isEmpty
  · rw [if_pos hc] at hok
    injection hok with h
    exact h ▸ h2
  · rw [if_neg hc] at hok
    have h3 := zonePhase_pickInv (p := p) hL _ h2
    by_cases hm : (zoneMapPhase p first last (_pick_delete_row_groups p first last
        (_init_include_blocks p first s))).remain_block < MIN_FILTER_BLOCK_NUM
    · rw [if_pos hm] at hok
      injection hok with h
      exact h ▸ h3
    · rw [if_neg hm] at hok
      injection hok with h
      exact h ▸ bloomPhase_pickInv (p := p) hL _ h3

/-! ### Phase-level consequences of the step shape -/

theorem blockFold_sat_absorb (g : PruneState → Nat → PruneState)
    (hg : ∀ s j, StepShape s (g s j) j) (r : List Nat) (j' : Nat) :
    ∀ s, s.include_blocks.getD j' DEL_SATISFIED = DEL_SATISFIED →
      (r.foldl g s).include_blocks.getD j' DEL_SATISFIED = DEL_SATISFIED :=
  foldl_inv r (fun s'' b _ hb => stepShape_sat_absorb (hg s'' b) hb)

theorem deletePhase_sat_absorb (p : PickEnv) (first last : Nat) (s : PruneState)
    (j' : Nat) (h : s.include_blocks.getD j' DEL_SATISFIED = DEL_SATISFIED) :
    (_pick_delete_row_groups p first last s).include_blocks.getD j' DEL_SATISFIED =
      DEL_SATISFIED := by
  unfold _pick_delete_row_groups
  split
  · exact h
  · split
    · exact h
    · refine foldl_inv
        (P := fun t => t.include_blocks.getD j' DEL_SATISFIED = DEL_SATISFIED)
        p.delete_conditions (fun s' dc _ hs' => ?_) s h
      split
      · exact hs'
      · exact blockFold_sat_absorb _
          (fun s'' j => applyDeleteCondition_cases p dc j s'') _ j' s' hs'

theorem zonePhase_sat_absorb (p : PickEnv) (first last : Nat) (s : PruneState)
    (j' : Nat) (h : s.include_blocks.getD j' DEL_SATISFIED = DEL_SATISFIED) :
    (zoneMapPhase p first last s).include_blocks.getD j' DEL_SATISFIED =
      DEL_SATISFIED := by
  unfold zoneMapPhase
  refine foldl_inv
    (P := fun t => t.include_blocks.getD j' DEL_SATISFIED = DEL_SATISFIED)
    p.cond_columns (fun s' c _ hs' => ?_) s h
  split
  · exact hs'
  · split
    · exact hs'
    · exact blockFold_sat_absorb _
        (fun s'' j => condBlockStep_cases p c.eval_zone s'' j) _ j' s' hs'

theorem bloomPhase_sat_absorb (p : PickEnv) (first last : Nat) (s : PruneState)
    (j' : Nat) (h : s.include_blocks.getD j' DEL_SATISFIED = DEL_SATISFIED) :
    (bloomFilterPhase p first last s).include_blocks.getD j' DEL_SATISFIED =
      DEL_SATISFIED := by
  unfold bloomFilterPhase
  refine foldl_inv
    (P := fun t => t.include_blocks.getD j' DEL_SATISFIED = DEL_SATISFIED)
    p.bf_columns (fun s' c _ hs' => ?_) s h
  split
  · exact hs'
  · split
    · exact hs'
    · exact blockFold_sat_absorb _
        (fun s'' j => condBlockStep_cases p c.eval_bf s'' j) _ j' s' hs'

theorem foldl_remain_le {β : Type} (f : PruneState → β → PruneState)
    (h : ∀ s b, (f s b).remain_block ≤ s.remain_block) :
    ∀ (l : List β) (s : PruneState), (l.foldl f s).remain_block ≤ s.remain_block := by
  intro l
  induction l with
  | nil => intro s; exact le_refl _
  | cons b t ih =>
    intro s
    simp only [List.foldl_cons]
    exact (ih (f s b)).trans (h s b)

theorem bloomPhase_remain_le (p : PickEnv) (first last : Nat) (t : PruneState) :
    (bloomFilterPhase p first last t).remain_block ≤ t.remain_block := by
  unfold bloomFilterPhase
  refine foldl_remain_le _ (fun s c => ?_) p.bf_columns t
  split
  · exact le_refl _
  · split
    · exact le_refl _
    · exact foldl_remain_le _
        (fun s' j => stepShape_remain_le (condBlockStep_cases p c.eval_bf s' j)) _ s

/-! ### Scan-machine helper lemmas -/

theorem seekColumns_success (env : ScanEnv)
    (h : ∀ cid b, env.seek_result cid b = .OLAP_SUCCESS) (b : Int) :
    ∀ cids, seekColumns env b cids = .OLAP_SUCCESS := by
  intro cids
  induction cids with
  | nil => rfl
  | cons c t ih =>
    simp only [seekColumns, h c b]
    split
    · exact ih
    · exact ih

theorem loadColumns_success (env : ScanEnv)
    (h : ∀ cid b, env.next_vector_result cid b = .OLAP_SUCCESS) (b : Int) :
    ∀ cids, loadColumns env b cids = .OLAP_SUCCESS := by
  intro cids
  induction cids with
  | nil => rfl
  | cons c t ih => simp only [loadColumns, h c b]; exact ih

/-- When every column seek succeeds, `_seek_to_block_directly` returns
success and positions the cursor on the target block with the re-seek flag
cleared — whether or not the early-skip branch was taken. -/
theorem seek_directly_state (env : ScanEnv) (b : Int) (cids : List Nat)
    (s : ScanState) (h : seekColumns env b cids = .OLAP_SUCCESS) :
    _seek_to_block_directly env b cids s =
      (.OLAP_SUCCESS,
       { s with current_block_id := b, need_to_seek_block := false }) := by
  unfold _seek_to_block_directly
  by_cases hc : s.need_to_seek_block = false ∧ b = s.current_block_id
  · rw [if_pos hc]
    obtain ⟨h1, h2⟩ := hc
    cases s
    simp_all
  · rw [if_neg hc, h]

/-- When every decode succeeds, `_load_to_vectorized_row_batch` returns the
flattened state update and the tagged batch. -/
theorem load_batch_ok (env : ScanEnv) (size : Int) (s : ScanState)
    (h : loadColumns env s.current_block_id env.columns = .OLAP_SUCCESS) :
    _load_to_vectorized_row_batch env size s =
      (.OLAP_SUCCESS,
       { s with
          current_block_id := if size = env.num_rows_in_block then
              s.current_block_id + 1
            else s.current_block_id,
          need_to_seek_block := if size = env.num_rows_in_block then
              s.need_to_seek_block
            else true,
          blocks_load := s.blocks_load + 1,
          raw_rows_read := s.raw_rows_read + size },
       some { size := size,
              block_status :=
                match s.include_blocks with
                | some blocks => blocks.getD s.current_block_id.toNat DEL_SATISFIED
                | none => DEL_PARTIAL_SATISFIED }) := by
  unfold _load_to_vectorized_row_batch
  rw [h]

/-- The number of rows `get_block` asks the batch loader for, given the
block the cursor lands on (`_next_block_id` after the lazy seek). -/
def gbSize (env : ScanEnv) (s : ScanState) : Int :=
  if s.next_block_id = (env.block_count : Int) - 1 then
    min env.batch_limit
      (env.number_of_rows - env.num_rows_in_block * s.next_block_id)
  else env.batch_limit

/-- One full evaluation of `get_block` on a non-EOF state of an unfiltered
scan in which every column seek and every decode succeeds. -/
theorem get_block_unfiltered (env : ScanEnv) (s : ScanState)
    (heof : s.eof = false) (hinc : s.include_blocks = none)
    (hseek : ∀ cid b, env.seek_result cid b = .OLAP_SUCCESS)
    (hload : ∀ cid b, env.next_vector_result cid b = .OLAP_SUCCESS) :
    get_block env s =
      ({ status := .OLAP_SUCCESS,
         next_block_id := s.next_block_id + 1,
         eof := if s.next_block_id + 1 > s.end_block then true else false,
         batch := some { size := gbSize env s,
                         block_status := DEL_PARTIAL_SATISFIED } },
       { s with
          current_block_id := if gbSize env s = env.num_rows_in_block then
              s.next_block_id + 1
            else s.next_block_id,
          need_to_seek_block := if gbSize env s = env.num_rows_in_block then
              false
            else true,
          next_block_id := s.next_block_id + 1,
          eof := if s.next_block_id + 1 > s.end_block then true else false,
          blocks_load := s.blocks_load + 1,
          raw_rows_read := s.raw_rows_read + gbSize env s }) := by
  unfold get_block
  rw [if_neg (by rw [heof]; exact Bool.false_ne_true)]
  rw [seek_directly_state env _ _ _ (seekColumns_success env hseek _ _)]
  simp only
  rw [load_batch_ok env _ _
    (loadColumns_success env hload _ _)]
  simp only [hinc]
  unfold _seek_to_block
  simp only [hinc, heof]
  rfl

/-- The batch size `get_block` reports on any successful non-EOF call,
whatever the filtering state. -/
theorem get_block_size (env : ScanEnv) (s : ScanState)
    (heof : s.eof = false)
    (hseek : ∀ cid b, env.seek_result cid b = .OLAP_SUCCESS)
    (hload : ∀ cid b, env.next_vector_result cid b = .OLAP_SUCCESS) :
    (get_block env s).1.batch.map BatchResult.size = some (gbSize env s) := by
  unfold get_block
  rw [if_neg (by rw [heof]; exact Bool.false_ne_true)]
  rw [seek_directly_state env _ _ _ (seekColumns_success env hseek _ _)]
  simp only
  rw [load_batch_ok env _ _ (loadColumns_success env hload _ _)]
  rfl

/-- The scan state after `k ≥ 1` successful full-block reads of an
unfiltered scan: positioned after block `k-1`, about to read block `k`, with
`k` full blocks' rows accounted. -/
def midState (env : ScanEnv) (k : Nat) : ScanState :=
  { eof := false
    next_block_id := (k : Int)
    current_block_id := (k : Int)
    need_to_seek_block := false
    without_filter := true
    end_block := (env.block_count : Int) - 1
    include_blocks := none
    blocks_load := (k : Int)
    raw_rows_read := env.num_rows_in_block * (k : Int) }

theorem get_block_scanStart (env : ScanEnv) (c0 : Int)
    (hseek : ∀ cid b, env.seek_result cid b = .OLAP_SUCCESS)
    (hload : ∀ cid b, env.next_vector_result cid b = .OLAP_SUCCESS)
    (hlim : env.batch_limit = env.num_rows_in_block)
    (hcount : 2 ≤ env.block_count) :
    (get_block env (scanStart env c0)).2 = midState env 1 := by
  have hgb : gbSize env (scanStart env c0) = env.num_rows_in_block := by
    unfold gbSize scanStart
    simp only
    rw [if_neg (by omega), hlim]
  rw [get_block_unfiltered env _ rfl rfl hseek hload, hgb]
  unfold scanStart midState
  simp only [if_pos rfl]
  rw [if_neg (by push_cast; omega)]
  norm_num

theorem get_block_mid (env : ScanEnv) (k : Nat)
    (hseek : ∀ cid b, env.seek_result cid b = .OLAP_SUCCESS)
    (hload : ∀ cid b, env.next_vector_result cid b = .OLAP_SUCCESS)
    (hlim : env.batch_limit = env.num_rows_in_block)
    (hk2 : (k : Int) < (env.block_count : Int) - 1) :
    (get_block env (midState env k)).2 = midState env (k + 1) := by
  have hgb : gbSize env (midState env k) = env.num_rows_in_block := by
    unfold gbSize midState
    simp only
    rw [if_neg (by omega), hlim]
  rw [get_block_unfiltered env _ rfl rfl hseek hload, hgb]
  unfold midState
  simp only [if_pos rfl]
  rw [if_neg (by omega)]
  push_cast
  congr 1
  ring

/-- The exact number of rows left in the final block, as the
divisibility-aware remainder. -/
theorem final_rows_eq_mod {bs total count : Int} (hbs : 0 < bs)
    (hlo : bs * (count - 1) < total) (hhi : total ≤ bs * count) :
    total - bs * (count - 1) = if total % bs = 0 then bs else total % bs := by
  have hdm := Int.ediv_add_emod total bs
  have hr0 : 0 ≤ total % bs := Int.emod_nonneg total (ne_of_gt hbs)
  have hrb : total % bs < bs := Int.emod_lt_of_pos total hbs
  by_cases hr : total % bs = 0
  · rw [if_pos hr]
    have htq : total = bs * (total / bs) := by omega
    have h1 : count - 1 < total / bs := by
      refine (mul_lt_mul_left hbs).mp ?_
      rw [← htq]
      exact hlo
    have h2 : total / bs ≤ count := by
      refine (mul_le_mul_left hbs).mp ?_
      rw [← htq]
      exact hhi
    have hqc : total / bs = count := by omega
    rw [hqc] at htq
    have hexp : bs * count - bs * (count - 1) = bs := by ring
    linarith
  · rw [if_neg hr]
    have hrpos : 0 < total % bs := lt_of_le_of_ne hr0 (Ne.symm hr)
    have hq1 : total / bs < count := by
      refine (mul_lt_mul_left hbs).mp ?_
      linarith
    have hexp : bs * (total / bs + 1) = bs * (total / bs) + bs := by ring
    have hq2 : count - 1 < total / bs + 1 := by
      refine (mul_lt_mul_left hbs).mp ?_
      linarith
    have hqc : total / bs = count - 1 := by omega
    rw [hqc] at hdm
    linarith

theorem get_block_last (env : ScanEnv)
    (hseek : ∀ cid b, env.seek_result cid b = .OLAP_SUCCESS)
    (hload : ∀ cid b, env.next_vector_result cid b = .OLAP_SUCCESS)
    (hlim : env.batch_limit = env.num_rows_in_block)
    (hhi : env.number_of_rows ≤ env.num_rows_in_block * (env.block_count : Int))
    (hcount : 2 ≤ env.block_count) :
    (get_block env (midState env (env.block_count - 1))).1.batch.map
        BatchResult.size =
      some (env.number_of_rows -
        env.num_rows_in_block * ((env.block_count : Int) - 1)) ∧
    (get_block env (midState env (env.block_count - 1))).2.raw_rows_read =
      env.number_of_rows ∧
    (get_block env (midState env (env.block_count - 1))).2.eof = true := by
  have hnext : (midState env (env.block_count - 1)).next_block_id =
      (env.block_count : Int) - 1 := by
    unfold midState
    simp only
    push_cast [Nat.cast_sub (by omega : 1 ≤ env.block_count)]
    ring
  have hexp : env.num_rows_in_block * (env.block_count : Int) -
      env.num_rows_in_block * ((env.block_count : Int) - 1) =
      env.num_rows_in_block := by ring
  have hgb : gbSize env (midState env (env.block_count - 1)) =
      env.number_of_rows -
        env.num_rows_in_block * ((env.block_count : Int) - 1) := by
    unfold gbSize
    rw [hnext, if_pos rfl, hlim]
    exact min_eq_right (by linarith)
  refine ⟨?_, ?_, ?_⟩
  · rw [get_block_size env _ rfl hseek hload, hgb]
  · rw [get_block_unfiltered env _ rfl rfl hseek hload, hgb]
    simp only
    unfold midState
    simp only
    push_cast [Nat.cast_sub (by omega : 1 ≤ env.block_count)]
    ring
  · rw [get_block_unfiltered env _ rfl rfl hseek hload]
    simp only
    rw [if_pos (by rw [hnext]; unfold midState; simp only; omega)]

theorem get_block_single (env : ScanEnv) (c0 : Int)
    (hseek : ∀ cid b, env.seek_result cid b = .OLAP_SUCCESS)
    (hload : ∀ cid b, env.next_vector_result cid b = .OLAP_SUCCESS)
    (hlim : env.batch_limit = env.num_rows_in_block)
    (hhi : env.number_of_rows ≤ env.num_rows_in_block * (env.block_count : Int))
    (hcount : env.block_count = 1) :
    (get_block env (scanStart env c0)).1.batch.map BatchResult.size =
      some env.number_of_rows ∧
    (get_block env (scanStart env c0)).2.raw_rows_read = env.number_of_rows ∧
    (get_block env (scanStart env c0)).2.eof = true := by
  have hgb : gbSize env (scanStart env c0) = env.number_of_rows := by
    unfold gbSize scanStart
    simp only
    rw [if_pos (by rw [hcount]; norm_num), hlim, mul_zero, sub_zero]
    refine min_eq_right ?_
    rw [hcount] at hhi
    push_cast at hhi
    linarith
  refine ⟨?_, ?_, ?_⟩
  · rw [get_block_size env _ rfl hseek hload, hgb]
  · rw [get_block_unfiltered env _ rfl rfl hseek hload, hgb]
    simp only
    unfold scanStart
    simp only
    ring
  · rw [get_block_unfiltered env _ rfl rfl hseek hload]
    simp only
    rw [if_pos (by unfold scanStart; simp only; rw [hcount]; norm_num)]

/-! ### C1: zero-column delete conditions -/

/-- A concrete pick environment with a single **zero-column** delete condition
that applies to the segment (`filter_version = 5 > version_first = 0`), the
segment not statically excluded from delete evaluation, and no user
predicates. -/
def envZeroCol : PickEnv :=
  { block_count := 1
    num_rows_in_block := 1024
    number_of_rows := 1024
    version_first := 0
    delete_status := DEL_SATISFIED
    delete_conditions := [{ filter_version := 5, columns := [] }]
    cond_columns := []
    bf_columns := [] }

/-- C1 counterexample: with the applicable zero-column delete condition of
`envZeroCol`, `pick_row_groups (0, 0)` leaves block 0 at `DEL_NOT_SATISFIED`
(Include) with the remaining-block counter still 1 — the condition is handled
by the NoMatch branch (segment_reader.cpp:404), not as a `FullMatch` that
would set the block to `DEL_SATISFIED` (Excluded) and decrement the
counter. -/
theorem zero_column_delete_condition_not_fullmatch :
    seek_pick_row_groups envZeroCol 0 0 =
      .ok { include_blocks := [DEL_NOT_SATISFIED], remain_block := 1,
            rows_del_filtered := 0, rows_stats_filtered := 0 } ∧
    (∀ s, seek_pick_row_groups envZeroCol 0 0 = .ok s →
      s.include_blocks.getD 0 DEL_SATISFIED ≠ DEL_SATISFIED ∧
      s.remain_block = 1) := by
  have h : seek_pick_row_groups envZeroCol 0 0 =
      .ok ({ include_blocks := [DEL_NOT_SATISFIED], remain_block := 1,
             rows_del_filtered := 0, rows_stats_filtered := 0 } : PruneState) := rfl
  refine ⟨h, ?_⟩
  intro s hs
  rw [h] at hs
  injection hs with h2
  subst h2
  exact ⟨by decide, rfl⟩

/-- C1 amended: a delete condition with zero columns is treated exactly like a
`NoMatch` (`DEL_NOT_SATISFIED`) outcome on every block that is not already
excluded: the block is set to `DEL_NOT_SATISFIED` (Include) unless it is
currently `DEL_PARTIAL_SATISFIED` (in which case it is left unchanged), and
the remaining-block counter is not decremented. -/
theorem zero_column_delete_condition_is_nomatch (p : PickEnv)
    (dc : DeleteCondition) (j : Nat) (s : PruneState)
    (hcols : dc.columns = [])
    (hnot : s.include_blocks.getD j DEL_SATISFIED ≠ DEL_SATISFIED) :
    (applyDeleteCondition p dc j s).remain_block = s.remain_block ∧
    (applyDeleteCondition p dc j s).include_blocks =
      (if s.include_blocks.getD j DEL_SATISFIED = DEL_PARTIAL_SATISFIED
       then s.include_blocks
       else s.include_blocks.set j DEL_NOT_SATISFIED) := by
  unfold applyDeleteCondition
  rw [if_neg hnot]
  simp only [hcols, evalDeleteCols, List.length_nil]
  rw [if_pos (Or.inr trivial)]
  split
  · exact ⟨rfl, rfl⟩
  · exact ⟨rfl, rfl⟩

/-- Witness for `zero_column_delete_condition_is_nomatch` at a concrete
input. -/
theorem zero_column_delete_condition_is_nomatch_witness :
    (applyDeleteCondition envZeroCol { filter_version := 5, columns := [] } 0
        { include_blocks := [DEL_NOT_SATISFIED], remain_block := 1,
          rows_del_filtered := 0, rows_stats_filtered := 0 }).remain_block =
      ({ include_blocks := [DEL_NOT_SATISFIED], remain_block := 1,
         rows_del_filtered := 0, rows_stats_filtered := 0 } : PruneState).remain_block ∧
    (applyDeleteCondition envZeroCol { filter_version := 5, columns := [] } 0
        { include_blocks := [DEL_NOT_SATISFIED], remain_block := 1,
          rows_del_filtered := 0, rows_stats_filtered := 0 }).include_blocks =
      (if ({ include_blocks := [DEL_NOT_SATISFIED], remain_block := 1,
             rows_del_filtered := 0, rows_stats_filtered := 0 } : PruneState).include_blocks.getD
              0 DEL_SATISFIED = DEL_PARTIAL_SATISFIED
       then ({ include_blocks := [DEL_NOT_SATISFIED], remain_block := 1,
               rows_del_filtered := 0, rows_stats_filtered := 0 } : PruneState).include_blocks
       else ({ include_blocks := [DEL_NOT_SATISFIED], remain_block := 1,
               rows_del_filtered := 0, rows_stats_filtered := 0 } : PruneState).include_blocks.set
              0 DEL_NOT_SATISFIED) :=
  zero_column_delete_condition_is_nomatch envZeroCol
    { filter_version := 5, columns := [] } 0
    { include_blocks := [DEL_NOT_SATISFIED], remain_block := 1,
      rows_del_filtered := 0, rows_stats_filtered := 0 } rfl (by decide)

/-! ### C9: pick_row_groups argument check and disposition initialization -/

/-- C9: `_pick_row_groups` rejects `first_block > last_block` with
`OLAP_ERR_INPUT_PARAMETER_ERROR`; otherwise (with `_remain_block` set to the
range size by `seek_to_block`, and the range within bounds) the disposition
array built by `_init_include_blocks` — the state handed to the pruning
phases — is `DEL_NOT_SATISFIED` (Include) exactly on `[first, last]` and
`DEL_SATISFIED` (Excluded) everywhere else. -/
theorem pick_row_groups_contract (p : PickEnv) (first last : Nat) (s : PruneState) :
    (first > last →
      _pick_row_groups p first last s = .error .OLAP_ERR_INPUT_PARAMETER_ERROR) ∧
    (first ≤ last → last < p.block_count →
      s.remain_block = (last : Int) - (first : Int) + 1 →
      ∀ j, j < p.block_count →
        (_init_include_blocks p first s).include_blocks.getD j DEL_SATISFIED =
          if first ≤ j ∧ j ≤ last then DEL_NOT_SATISFIED else DEL_SATISFIED) := by
  constructor
  · intro h
    unfold _pick_row_groups
    rw [if_pos h]
  · intro h1 _h2 h3 j hj
    unfold _init_include_blocks
    simp only
    rw [getD_range_map, if_pos hj]
    have htn : s.remain_block.toNat = last - first + 1 := by
      rw [h3]; omega
    rw [htn]
    by_cases hc : first ≤ j ∧ j ≤ last
    · rw [if_pos (by omega), if_pos hc]
    · rw [if_neg (by omega), if_neg hc]

/-- Witness for `pick_row_groups_contract` at concrete inputs (one instance
per conjunct). -/
theorem pick_row_groups_contract_witness :
    _pick_row_groups envZeroCol 1 0
        { include_blocks := [], remain_block := 0,
          rows_del_filtered := 0, rows_stats_filtered := 0 } =
      .error .OLAP_ERR_INPUT_PARAMETER_ERROR ∧
    (_init_include_blocks envZeroCol 0
        { include_blocks := [], remain_block := 1,
          rows_del_filtered := 0, rows_stats_filtered := 0 }).include_blocks.getD
        0 DEL_SATISFIED =
      if 0 ≤ 0 ∧ 0 ≤ 0 then DEL_NOT_SATISFIED else DEL_SATISFIED :=
  ⟨(pick_row_groups_contract envZeroCol 1 0
      { include_blocks := [], remain_block := 0,
        rows_del_filtered := 0, rows_stats_filtered := 0 }).1 (by decide),
   (pick_row_groups_contract envZeroCol 0 0
      { include_blocks := [], remain_block := 1,
        rows_del_filtered := 0, rows_stats_filtered := 0 }).2 (by decide)
      (by decide) (by decide) 0 (by decide)⟩

/-! ### C2: disposition strictness -/

/-- C2: throughout `_pick_row_groups`, a block whose disposition is
`DEL_SATISFIED` (Excluded) is left untouched by the delete-condition pass,
the zone-map pass and the bloom-filter pass; and a block currently
`DEL_PARTIAL_SATISFIED` (RequiresRowFilter) is left completely unchanged by a
delete condition whose outcome for that block is `DEL_NOT_SATISFIED`
(NoMatch) — it is never reverted to Include. -/
theorem disposition_strictness (p : PickEnv) (first last : Nat) :
    (∀ s j, s.include_blocks.getD j DEL_SATISFIED = DEL_SATISFIED →
      (_pick_delete_row_groups p first last s).include_blocks.getD j DEL_SATISFIED
          = DEL_SATISFIED ∧
      (zoneMapPhase p first last s).include_blocks.getD j DEL_SATISFIED
          = DEL_SATISFIED ∧
      (bloomFilterPhase p first last s).include_blocks.getD j DEL_SATISFIED
          = DEL_SATISFIED) ∧
    (∀ dc j s,
      s.include_blocks.getD j DEL_SATISFIED = DEL_PARTIAL_SATISFIED →
      deleteConditionOutcome dc j = DEL_NOT_SATISFIED →
      applyDeleteCondition p dc j s = s) := by
  constructor
  · intro s j h
    exact ⟨deletePhase_sat_absorb p first last s j h,
      zonePhase_sat_absorb p first last s j h,
      bloomPhase_sat_absorb p first last s j h⟩
  · intro dc j s hpart hout
    have hcond : (evalDeleteCols dc.columns j false false).2 = true ∨
        dc.columns.length = 0 := by
      by_contra hc
      unfold deleteConditionOutcome at hout
      rw [if_neg hc] at hout
      split at hout <;> exact absurd hout (by decide)
    unfold applyDeleteCondition
    rw [if_neg (by rw [hpart]; decide), if_pos hcond, if_pos hpart]

/-- Witness for `disposition_strictness` at concrete inputs. -/
theorem disposition_strictness_witness :
    ((_pick_delete_row_groups envZeroCol 0 0
        { include_blocks := [DEL_SATISFIED], remain_block := 0,
          rows_del_filtered := 0, rows_stats_filtered := 0 }).include_blocks.getD 0
        DEL_SATISFIED = DEL_SATISFIED ∧
     (zoneMapPhase envZeroCol 0 0
        { include_blocks := [DEL_SATISFIED], remain_block := 0,
          rows_del_filtered := 0, rows_stats_filtered := 0 }).include_blocks.getD 0
        DEL_SATISFIED = DEL_SATISFIED ∧
     (bloomFilterPhase envZeroCol 0 0
        { include_blocks := [DEL_SATISFIED], remain_block := 0,
          rows_del_filtered := 0, rows_stats_filtered := 0 }).include_blocks.getD 0
        DEL_SATISFIED = DEL_SATISFIED) ∧
    applyDeleteCondition envZeroCol { filter_version := 5, columns := [] } 0
        { include_blocks := [DEL_PARTIAL_SATISFIED], remain_block := 1,
          rows_del_filtered := 0, rows_stats_filtered := 0 } =
      { include_blocks := [DEL_PARTIAL_SATISFIED], remain_block := 1,
        rows_del_filtered := 0, rows_stats_filtered := 0 } :=
  ⟨(disposition_strictness envZeroCol 0 0).1
      { include_blocks := [DEL_SATISFIED], remain_block := 0,
        rows_del_filtered := 0, rows_stats_filtered := 0 } 0 (by decide),
   (disposition_strictness envZeroCol 0 0).2
      { filter_version := 5, columns := [] } 0
      { include_blocks := [DEL_PARTIAL_SATISFIED], remain_block := 1,
        rows_del_filtered := 0, rows_stats_filtered := 0 } (by decide) (by decide)⟩

/-! ### C10: monotone remaining-block counter -/

/-- C10: per-block accounting of `_remain_block`.  Each per-block update of
the delete-condition pass and of the zone-map/bloom-filter passes decrements
the counter by exactly 1 when the block transitions into `DEL_SATISFIED`
(Excluded) and leaves it unchanged otherwise (in particular it never
increases); and across a whole `_pick_row_groups` run started from
`seek_to_block`'s initialization `_remain_block = last - first + 1`, the
final counter equals the range size minus the number of excluded blocks of
the range (once excluded, a block stays excluded, so that number is exactly
the number of blocks that transitioned). -/
theorem remain_block_accounting (p : PickEnv) (first last : Nat) :
    (∀ dc j s, j < s.include_blocks.length →
      (applyDeleteCondition p dc j s).remain_block =
        s.remain_block -
          (if s.include_blocks.getD j DEL_SATISFIED ≠ DEL_SATISFIED ∧
              (applyDeleteCondition p dc j s).include_blocks.getD j DEL_SATISFIED
                = DEL_SATISFIED then 1 else 0) ∧
      (applyDeleteCondition p dc j s).remain_block ≤ s.remain_block) ∧
    (∀ ev j s, j < s.include_blocks.length →
      (condBlockStep p ev s j).remain_block =
        s.remain_block -
          (if s.include_blocks.getD j DEL_SATISFIED ≠ DEL_SATISFIED ∧
              (condBlockStep p ev s j).include_blocks.getD j DEL_SATISFIED
                = DEL_SATISFIED then 1 else 0) ∧
      (condBlockStep p ev s j).remain_block ≤ s.remain_block) ∧
    (first ≤ last → last < p.block_count →
      ∀ sf, seek_pick_row_groups p first last = .ok sf →
        sf.remain_block =
          ((last : Int) - (first : Int) + 1) -
            (excludedCount sf.include_blocks first last : Int)) := by
  refine ⟨?_, ?_, ?_⟩
  · intro dc j s hlen
    have hc := applyDeleteCondition_cases p dc j s
    exact ⟨stepShape_remain_delta hc hlen, stepShape_remain_le hc⟩
  · intro ev j s hlen
    have hc := condBlockStep_cases p ev s j
    exact ⟨stepShape_remain_delta hc hlen, stepShape_remain_le hc⟩
  · intro hfl hL sf hok
    unfold seek_pick_row_groups at hok
    have hinit : PickInv first last p.block_count ((last : Int) - (first : Int) + 1)
        (_init_include_blocks p first
          { include_blocks := [], remain_block := (last : Int) - (first : Int) + 1,
            rows_del_filtered := 0, rows_stats_filtered := 0 }) := by
      refine ⟨init_include_blocks_length p first _, ?_⟩
      rw [excludedCount_init p first last _ hfl hL rfl]
      unfold _init_include_blocks
      simp
    have := (pick_row_groups_pickInv p first last _ hfl hL hinit sf hok).2
    omega

/-- Witness for `remain_block_accounting` at concrete inputs. -/
theorem remain_block_accounting_witness :
    ((applyDeleteCondition envZeroCol { filter_version := 5, columns := [] } 0
        { include_blocks := [DEL_NOT_SATISFIED], remain_block := 1,
          rows_del_filtered := 0, rows_stats_filtered := 0 }).remain_block =
      ({ include_blocks := [DEL_NOT_SATISFIED], remain_block := 1,
         rows_del_filtered := 0, rows_stats_filtered := 0 } : PruneState).remain_block -
        (if ({ include_blocks := [DEL_NOT_SATISFIED], remain_block := 1,
               rows_del_filtered := 0,
               rows_stats_filtered := 0 } : PruneState).include_blocks.getD 0
              DEL_SATISFIED ≠ DEL_SATISFIED ∧
            (applyDeleteCondition envZeroCol { filter_version := 5, columns := [] } 0
              { include_blocks := [DEL_NOT_SATISFIED], remain_block := 1,
                rows_del_filtered := 0,
                rows_stats_filtered := 0 }).include_blocks.getD 0 DEL_SATISFIED
              = DEL_SATISFIED then 1 else 0) ∧
     (applyDeleteCondition envZeroCol { filter_version := 5, columns := [] } 0
        { include_blocks := [DEL_NOT_SATISFIED], remain_block := 1,
          rows_del_filtered := 0, rows_stats_filtered := 0 }).remain_block ≤
      ({ include_blocks := [DEL_NOT_SATISFIED], remain_block := 1,
         rows_del_filtered := 0, rows_stats_filtered := 0 } : PruneState).remain_block) ∧
    (∀ sf, seek_pick_row_groups envZeroCol 0 0 = .ok sf →
      sf.remain_block =
        ((0 : Int) - (0 : Int) + 1) -
          (excludedCount sf.include_blocks 0 0 : Int)) :=
  ⟨(remain_block_accounting envZeroCol 0 0).1 { filter_version := 5, columns := [] } 0
      { include_blocks := [DEL_NOT_SATISFIED], remain_block := 1,
        rows_del_filtered := 0, rows_stats_filtered := 0 } (by decide),
   (remain_block_accounting envZeroCol 0 0).2.2 (by decide) (by decide)⟩

/-! ### C7: the bloom-filter phase threshold -/

/-- A pick environment with 12 blocks, **no user-predicate columns**, and one
bloom-filter column whose membership test fails on every block (it would
exclude every block if the bloom-filter pass ran). -/
def envBloomSkip : PickEnv :=
  { block_count := 12
    num_rows_in_block := 1024
    number_of_rows := 12288
    version_first := 0
    delete_status := DEL_NOT_SATISFIED
    delete_conditions := []
    cond_columns := []
    bf_columns := [{ aggregation_none := true, in_segment := true,
                     eval_bf := fun _ => false }] }

/-- The state `_pick_row_groups(0, 11)` produces under `envBloomSkip`:
all 12 blocks Include, 12 blocks remaining. -/
def stBloomSkip : PruneState :=
  { include_blocks := List.replicate 12 DEL_NOT_SATISFIED
    remain_block := 12
    rows_del_filtered := 0
    rows_stats_filtered := 0 }

/-- C7 counterexample: under `envBloomSkip` the remaining-block count after
the delete-condition and zone-map phases is 12 ≥ 10, yet `_pick_row_groups`
returns without running the bloom-filter phase, because it returns early when
there are no user-predicate columns (segment_reader.cpp:463-465); running the
bloom-filter pass on the returned state would have excluded every block.  So
the bloom-filter phase does *not* run whenever the remaining count is at
least 10 — the claimed "if and only if" fails in the "if" direction. -/
theorem bloom_phase_skipped_without_predicates :
    seek_pick_row_groups envBloomSkip 0 11 = .ok stBloomSkip ∧
    (10 : Int) ≤ stBloomSkip.remain_block ∧
    bloomFilterPhase envBloomSkip 0 11 stBloomSkip ≠ stBloomSkip ∧
    (bloomFilterPhase envBloomSkip 0 11 stBloomSkip).remain_block = 0 :=
  ⟨rfl, by decide, by decide, by decide⟩

/-- C7 amended: the bloom-filter phase of `_pick_row_groups` runs if and only
if there is at least one user-predicate column **and** the remaining
(non-excluded) block count measured after the delete-condition and zone-map
phases is at least `MIN_FILTER_BLOCK_NUM` (10); when it is skipped the result
is exactly the state the earlier phases produced (no bloom lookups, no
disposition changes), and running it never increases the remaining-block
count. -/
theorem bloom_filter_phase_threshold (p : PickEnv) (first last : Nat)
    (s : PruneState) (h : first ≤ last) :
    (_pick_row_groups p first last s =
      .ok (if p.cond_columns.isEmpty then
             _pick_delete_row_groups p first last (_init_include_blocks p first s)
           else if (zoneMapPhase p first last (_pick_delete_row_groups p first last
               (_init_include_blocks p first s))).remain_block <
               MIN_FILTER_BLOCK_NUM then
             zoneMapPhase p first last
               (_pick_delete_row_groups p first last (_init_include_blocks p first s))
           else
             bloomFilterPhase p first last (zoneMapPhase p first last
               (_pick_delete_row_groups p first last
                 (_init_include_blocks p first s))))) ∧
    (∀ t, (bloomFilterPhase p first last t).remain_block ≤ t.remain_block) := by
  constructor
  · unfold _pick_row_groups
    rw [if_neg (by omega)]
    simp only
    by_cases hc : p.cond_columns.isEmpty
    · rw [if_pos hc, if_pos hc]
    · rw [if_neg hc, if_neg hc]
      by_cases hm : (zoneMapPhase p first last (_pick_delete_row_groups p first last
          (_init_include_blocks p first s))).remain_block < MIN_FILTER_BLOCK_NUM
      · rw [if_pos hm, if_pos hm]
      · rw [if_neg hm, if_neg hm]
  · intro t
    exact bloomPhase_remain_le p first last t

/-- Witness for `bloom_filter_phase_threshold` at concrete inputs. -/
theorem bloom_filter_phase_threshold_witness :
    (_pick_row_groups envBloomSkip 0 11
        { include_blocks := [], remain_block := 12,
          rows_del_filtered := 0, rows_stats_filtered := 0 } =
      .ok (if envBloomSkip.cond_columns.isEmpty then
             _pick_delete_row_groups envBloomSkip 0 11
               (_init_include_blocks envBloomSkip 0
                 { include_blocks := [], remain_block := 12,
                   rows_del_filtered := 0, rows_stats_filtered := 0 })
           else if (zoneMapPhase envBloomSkip 0 11
               (_pick_delete_row_groups envBloomSkip 0 11
                 (_init_include_blocks envBloomSkip 0
                   { include_blocks := [], remain_block := 12,
                     rows_del_filtered := 0,
                     rows_stats_filtered := 0 }))).remain_block <
               MIN_FILTER_BLOCK_NUM then
             zoneMapPhase envBloomSkip 0 11
               (_pick_delete_row_groups envBloomSkip 0 11
                 (_init_include_blocks envBloomSkip 0
                   { include_blocks := [], remain_block := 12,
                     rows_del_filtered := 0, rows_stats_filtered := 0 }))
           else
             bloomFilterPhase envBloomSkip 0 11 (zoneMapPhase envBloomSkip 0 11
               (_pick_delete_row_groups envBloomSkip 0 11
                 (_init_include_blocks envBloomSkip 0
                   { include_blocks := [], remain_block := 12,
                     rows_del_filtered := 0, rows_stats_filtered := 0 }))))) ∧
    (bloomFilterPhase envBloomSkip 0 11 stBloomSkip).remain_block ≤
      stBloomSkip.remain_block :=
  ⟨(bloom_filter_phase_threshold envBloomSkip 0 11
      { include_blocks := [], remain_block := 12,
        rows_del_filtered := 0, rows_stats_filtered := 0 } (by decide)).1,
   (bloom_filter_phase_threshold envBloomSkip 0 11
      { include_blocks := [], remain_block := 12,
        rows_del_filtered := 0, rows_stats_filtered := 0 } (by decide)).2 stBloomSkip⟩

/-! ### Lemmas about the `_load_index` walk -/

theorem streamOffsetsFrom_getD (streams : List StreamInfoMessage) :
    ∀ (off i : Nat), i < streams.length →
      (streamOffsetsFrom off streams).getD i 0 =
        off + ((streams.take i).map StreamInfoMessage.length).sum := by
  induction streams with
  | nil =>
    intro off i h
    simp at h
  | cons m rest ih =>
    intro off i h
    cases i with
    | zero => simp [streamOffsetsFrom]
    | succ n =>
      simp only [streamOffsetsFrom, List.getD_cons_succ, List.take_succ_cons,
        List.map_cons, List.sum_cons]
      rw [ih (off + m.length) n (by simpa using h)]
      omega

/-- Every record produced by the walk was already present, or corresponds to
a position `k` of the processed list `L`, with offset equal to the incoming
offset plus the lengths of the `k` descriptors of `L` before it — whatever
the needed/skipped pattern is. -/
theorem loadIndexGo_offsets (env : LoadIndexEnv) (orc : IndexOracle) :
    ∀ (L : List (Nat × StreamInfoMessage)) (off : Nat) (st st' : LoadIndexState),
      loadIndexGo env orc L off st = .ok st' →
      ∀ r ∈ st'.processed, r ∈ st.processed ∨
        ∃ k, ∃ hk : k < L.length,
          (L.get ⟨k, hk⟩).1 = r.stream_index ∧
          r.offset = off + ((L.take k).map (fun x => x.2.length)).sum := by
  intro L
  induction L with
  | nil =>
    intro off st st' h r hr
    simp only [loadIndexGo] at h
    injection h with h
    exact Or.inl (h ▸ hr)
  | cons q rest ih =>
    intro off st st' h r hr
    obtain ⟨i, m⟩ := q
    simp only [loadIndexGo] at h
    by_cases hn : neededStream env m = false
    · rw [if_pos hn] at h
      rcases ih (off + m.length) st st' h r hr with hin | ⟨k, hk, h1, h2⟩
      · exact Or.inl hin
      · refine Or.inr ⟨k + 1, by simpa using Nat.succ_lt_succ hk, h1, ?_⟩
        simp only [List.take_succ_cons, List.map_cons, List.sum_cons]
        omega
    · rw [if_neg hn] at h
      split at h
      · simp at h
      · split at h
        · simp at h
        · split at h
          · simp at h
          · rcases ih (off + m.length) _ st' h r hr with hin | ⟨k, hk, h1, h2⟩
            · simp only [List.mem_append, List.mem_singleton] at hin
              rcases hin with h1 | rfl
              · exact Or.inl h1
              · exact Or.inr ⟨0, by simp, rfl, by simp⟩
            · refine Or.inr ⟨k + 1, by simpa using Nat.succ_lt_succ hk, h1, ?_⟩
              simp only [List.take_succ_cons, List.map_cons, List.sum_cons]
              omega

/-- If every needed stream of `L` reads and parses cleanly but some needed
stream's parsed entry count differs from the expected block count, the walk
fails with `OLAP_ERR_FILE_FORMAT_ERROR`. -/
theorem loadIndexGo_mismatch (env : LoadIndexEnv) (orc : IndexOracle) :
    ∀ (L : List (Nat × StreamInfoMessage)) (off : Nat) (st : LoadIndexState),
      (∀ q ∈ L, neededStream env q.2 = true →
        orc.read_result q.1 = .OLAP_SUCCESS ∧ orc.parse_result q.1 = .OLAP_SUCCESS) →
      (∃ q ∈ L, neededStream env q.2 = true ∧
        orc.entry_count q.1 ≠ env.expected_blocks) →
      loadIndexGo env orc L off st = .error .OLAP_ERR_FILE_FORMAT_ERROR := by
  intro L
  induction L with
  | nil =>
    rintro off st _ ⟨q, hq, _⟩
    simp at hq
  | cons q rest ih =>
    rintro off st hok ⟨q', hq', hn', hc'⟩
    obtain ⟨i, m⟩ := q
    simp only [loadIndexGo]
    by_cases hn : neededStream env m = false
    · rw [if_pos hn]
      apply ih
      · exact fun q hq h => hok q (List.mem_cons_of_mem _ hq) h
      · rcases List.mem_cons.mp hq' with rfl | hmem
        · rw [hn'] at hn; cases hn
        · exact ⟨q', hmem, hn', hc'⟩
    · rw [if_neg hn]
      have hneed : neededStream env m = true := by
        cases hb : neededStream env m
        · exact absurd hb hn
        · rfl
      have hok0 := hok (i, m) (List.mem_cons_self _ _) hneed
      rw [if_neg (by rintro ⟨_, hread⟩; exact hread hok0.1),
        if_neg (by intro hparse; exact hparse hok0.2)]
      by_cases hcnt : orc.entry_count i ≠ env.expected_blocks
      · rw [if_pos hcnt]
      · rw [if_neg hcnt]
        apply ih
        · exact fun q hq h => hok q (List.mem_cons_of_mem _ hq) h
        · rcases List.mem_cons.mp hq' with rfl | hmem
          · exact absurd hc' hcnt
          · exact ⟨q', hmem, hn', hc'⟩

/-- The caching flag carried by the walk: the initial flag, or-ed with "some
processed stream hit the cache". -/
def cacheFlagAt (b0 : Bool) (recs : List StreamRecord) : Bool :=
  b0 || recs.any (fun r => r.hit)

/-- Coherence of the processed records with initial caching flag `b0`: each
record's `inserted`/`engine_owns` flags are determined by its own hit flag
and by whether caching was on when it was processed — that is, `b0` or a hit
among the records before it. -/
def RecordsCoherent (b0 : Bool) (recs : List StreamRecord) : Prop :=
  ∀ k, k < recs.length →
    (recs.getD k default).inserted =
      (!(recs.getD k default).hit && cacheFlagAt b0 (recs.take k)) ∧
    (recs.getD k default).engine_owns =
      (!(recs.getD k default).hit && !cacheFlagAt b0 (recs.take k))

theorem loadIndexGo_coherent (env : LoadIndexEnv) (orc : IndexOracle) (b0 : Bool) :
    ∀ (L : List (Nat × StreamInfoMessage)) (off : Nat) (st st' : LoadIndexState),
      st.is_using_cache = cacheFlagAt b0 st.processed →
      RecordsCoherent b0 st.processed →
      loadIndexGo env orc L off st = .ok st' →
      RecordsCoherent b0 st'.processed := by
  intro L
  induction L with
  | nil =>
    intro off st st' hf hc h
    simp only [loadIndexGo] at h
    injection h with h
    exact h ▸ hc
  | cons q rest ih =>
    intro off st st' hf hc h
    obtain ⟨i, m⟩ := q
    simp only [loadIndexGo] at h
    by_cases hn : neededStream env m = false
    · rw [if_pos hn] at h
      exact ih _ _ _ hf hc h
    · rw [if_neg hn] at h
      split at h
      · simp at h
      · split at h
        · simp at h
        · split at h
          · simp at h
          · refine ih _ _ _ ?_ ?_ h
            · simp only [cacheFlagAt, List.any_append, List.any_cons, List.any_nil,
                Bool.or_false]
              rw [hf]
              simp [cacheFlagAt, Bool.or_assoc]
            · intro k hk
              simp only [List.length_append, List.length_cons, List.length_nil] at hk
              by_cases hklt : k < st.processed.length
              · rw [List.getD_append _ _ _ _ hklt,
                  List.take_append_of_le_length (Nat.le_of_lt hklt)]
                exact hc k hklt
              · have hkeq : k = st.processed.length := by omega
                subst hkeq
                rw [List.getD_append_right _ _ _ _ (le_refl _), Nat.sub_self]
                have htk : (st.processed ++
                    [({ stream_index := i, offset := off, hit := orc.cache_hit i,
                        inserted := !(orc.cache_hit i) && st.is_using_cache,
                        engine_owns := !(orc.cache_hit i) && !st.is_using_cache } :
                      StreamRecord)]).take
                      st.processed.length = st.processed := List.take_left _ _
                rw [htk]
                simp only [List.getD_cons_zero]
                rw [← hf]
                exact ⟨rfl, rfl⟩

/-! ### C3: stream offsets accumulate forward over all descriptors -/

/-- C3: the offset computed for descriptor `i` is the header length plus the
sum of the lengths of descriptors `0..i-1`; every record `_load_index`
produces carries exactly that offset, for arbitrary needed/skipped column
sets (skipped descriptors still contribute their length); and for lengths
`[100, 200, 150]` with header length 500 the offsets are `[500, 600, 800]`. -/
theorem stream_offsets_accumulate :
    (∀ (header : Nat) (streams : List StreamInfoMessage) (i : Nat),
      i < streams.length →
      (streamOffsets header streams).getD i 0 =
        header + ((streams.take i).map StreamInfoMessage.length).sum) ∧
    (∀ (env : LoadIndexEnv) (orc : IndexOracle) (u : Bool) (st : LoadIndexState),
      _load_index env orc u = .ok st →
      ∀ r ∈ st.processed,
        r.offset = env.header_length +
          ((env.streams.take r.stream_index).map StreamInfoMessage.length).sum) ∧
    streamOffsets 500
        [{ length := 100, column_unique_id := 0, kind := StreamKind.ROW_INDEX },
         { length := 200, column_unique_id := 1, kind := StreamKind.ROW_INDEX },
         { length := 150, column_unique_id := 2, kind := StreamKind.ROW_INDEX }] =
      [500, 600, 800] := by
  refine ⟨?_, ?_, rfl⟩
  · intro header streams i h
    exact streamOffsetsFrom_getD streams header i h
  · intro env orc u st h r hr
    rcases loadIndexGo_offsets env orc env.streams.enum env.header_length _ st h r hr
      with hin | ⟨k, hk, h1, h2⟩
    · simp at hin
    · have hk' : k < env.streams.length := by simpa using hk
      have henum : (env.streams.enum.get ⟨k, hk⟩) = (k, env.streams.get ⟨k, hk'⟩) := by
        simp [List.get_eq_getElem, List.getElem_enum]
      have hks : k = r.stream_index := by
        rw [henum] at h1
        exact h1
      have hmap : ((env.streams.enum.take k).map (fun x => x.2.length)).sum =
          ((env.streams.take k).map StreamInfoMessage.length).sum := by
        have : (env.streams.enum.take k).map (fun x => x.2.length) =
            ((env.streams.enum.take k).map Prod.snd).map StreamInfoMessage.length := by
          rw [List.map_map]
          rfl
        rw [this, List.map_take, List.enum_map_snd, List.map_take]
      rw [h2, hmap, hks]

/-- Witness for `stream_offsets_accumulate` at concrete inputs. -/
theorem stream_offsets_accumulate_witness :
    (streamOffsets 500
        [{ length := 100, column_unique_id := 0, kind := StreamKind.ROW_INDEX },
         { length := 200, column_unique_id := 1, kind := StreamKind.ROW_INDEX },
         { length := 150, column_unique_id := 2, kind := StreamKind.ROW_INDEX }]).getD 2 0 =
      500 + (([{ length := 100, column_unique_id := 0, kind := StreamKind.ROW_INDEX },
               { length := 200, column_unique_id := 1, kind := StreamKind.ROW_INDEX },
               { length := 150, column_unique_id := 2,
                 kind := StreamKind.ROW_INDEX }].take 2).map
          StreamInfoMessage.length).sum :=
  stream_offsets_accumulate.1 500
    [{ length := 100, column_unique_id := 0, kind := StreamKind.ROW_INDEX },
     { length := 200, column_unique_id := 1, kind := StreamKind.ROW_INDEX },
     { length := 150, column_unique_id := 2, kind := StreamKind.ROW_INDEX }] 2
    (by decide)

/-! ### C4: block-count consistency across index structures -/

/-- C4: when every needed stream reads and parses successfully but two parsed
index structures (zone-map or bloom-filter readers) report different entry
counts, `_load_index` fails with `OLAP_ERR_FILE_FORMAT_ERROR` — both counts
are checked against the same header-derived expected block count
(segment_reader.cpp:691-702), so the first recorded count and any differing
subsequent count cannot both pass. -/
theorem load_index_block_count_mismatch (env : LoadIndexEnv) (orc : IndexOracle)
    (u : Bool)
    (hok : ∀ q ∈ env.streams.enum, neededStream env q.2 = true →
      orc.read_result q.1 = .OLAP_SUCCESS ∧ orc.parse_result q.1 = .OLAP_SUCCESS)
    (q1 q2 : Nat × StreamInfoMessage)
    (h1 : q1 ∈ env.streams.enum) (h2 : q2 ∈ env.streams.enum)
    (hn1 : neededStream env q1.2 = true) (hn2 : neededStream env q2.2 = true)
    (hne : orc.entry_count q1.1 ≠ orc.entry_count q2.1) :
    _load_index env orc u = .error .OLAP_ERR_FILE_FORMAT_ERROR := by
  unfold _load_index
  apply loadIndexGo_mismatch env orc _ _ _ hok
  by_cases hq1 : orc.entry_count q1.1 = env.expected_blocks
  · refine ⟨q2, h2, hn2, ?_⟩
    rw [← hq1]
    exact fun e => hne e.symm
  · exact ⟨q1, h1, hn1, hq1⟩

/-- A two-stream environment for the index-loading witnesses:
both streams needed, expected block count 4. -/
def envTwoStreams : LoadIndexEnv :=
  { header_length := 500
    expected_blocks := 4
    streams := [{ length := 100, column_unique_id := 0, kind := StreamKind.ROW_INDEX },
                { length := 200, column_unique_id := 1, kind := StreamKind.ROW_INDEX }]
    in_segment := fun _ => true
    is_column_included := fun _ => true
    is_bf_column_included := fun _ => false }

/-- An oracle whose second stream parses with a different entry count (5)
from the first (4 = expected). -/
def orcMismatch : IndexOracle :=
  { cache_hit := fun _ => false
    read_result := fun _ => .OLAP_SUCCESS
    parse_result := fun _ => .OLAP_SUCCESS
    entry_count := fun i => if i = 0 then 4 else 5 }

/-- Witness for `load_index_block_count_mismatch` at concrete inputs. -/
theorem load_index_block_count_mismatch_witness :
    _load_index envTwoStreams orcMismatch false =
      .error .OLAP_ERR_FILE_FORMAT_ERROR :=
  load_index_block_count_mismatch envTwoStreams orcMismatch false
    (by
      intro q hq _
      fin_cases hq <;> exact ⟨rfl, rfl⟩)
    (0, { length := 100, column_unique_id := 0, kind := StreamKind.ROW_INDEX })
    (1, { length := 200, column_unique_id := 1, kind := StreamKind.ROW_INDEX })
    (by decide) (by decide) (by decide) (by decide) (by decide)

/-! ### C6: cache insertion with caching disabled -/

/-- An oracle under which the first stream hits the shared cache and the
second misses, with consistent entry counts. -/
def orcHitThenMiss : IndexOracle :=
  { cache_hit := fun i => i == 0
    read_result := fun _ => .OLAP_SUCCESS
    parse_result := fun _ => .OLAP_SUCCESS
    entry_count := fun _ => 4 }

/-- C6 counterexample: `_load_index` initialized with caching **disabled**
(`is_using_cache = false`), the first needed stream hits the shared cache —
which flips the local `is_using_cache` flag (segment_reader.cpp:617) — and
the second needed stream misses: its freshly read buffer **is** inserted into
the cache and the engine does not keep direct ownership, contradicting the
claim that with caching disabled a missed buffer is never inserted
independently of earlier hits. -/
theorem cache_disabled_miss_inserted_after_hit :
    _load_index envTwoStreams orcHitThenMiss false =
      .ok { block_count := 4, is_using_cache := true,
            processed :=
              [{ stream_index := 0, offset := 500, hit := true,
                 inserted := false, engine_owns := false },
               { stream_index := 1, offset := 600, hit := false,
                 inserted := true, engine_owns := false }] } ∧
    (∀ st, _load_index envTwoStreams orcHitThenMiss false = .ok st →
      (st.processed.getD 1 default).hit = false ∧
      (st.processed.getD 1 default).inserted = true ∧
      (st.processed.getD 1 default).engine_owns = false) := by
  have h : _load_index envTwoStreams orcHitThenMiss false =
      .ok ({ block_count := 4, is_using_cache := true,
             processed :=
               [{ stream_index := 0, offset := 500, hit := true,
                  inserted := false, engine_owns := false },
                { stream_index := 1, offset := 600, hit := false,
                  inserted := true, engine_owns := false }] } : LoadIndexState) := rfl
  refine ⟨h, ?_⟩
  intro st hst
  rw [h] at hst
  injection hst with hst
  subst hst
  exact ⟨rfl, rfl, rfl⟩

/-- C6 amended: with caching disabled, a needed stream that misses the cache
has its buffer left out of the cache and owned by the engine **provided no
earlier needed stream of the same `_load_index` call hit the cache**; an
earlier hit flips the local `is_using_cache` flag, and subsequent misses are
inserted into the cache. -/
theorem load_index_cache_off_no_insert (env : LoadIndexEnv) (orc : IndexOracle)
    (st : LoadIndexState) (h : _load_index env orc false = .ok st)
    (k : Nat) (hk : k < st.processed.length)
    (hprev : (st.processed.take k).any (fun r => r.hit) = false)
    (hmiss : (st.processed.getD k default).hit = false) :
    (st.processed.getD k default).inserted = false ∧
    (st.processed.getD k default).engine_owns = true := by
  have hcoh : RecordsCoherent false st.processed := by
    refine loadIndexGo_coherent env orc false env.streams.enum env.header_length _ st
      rfl ?_ h
    intro k hk
    simp at hk
  have hrec := hcoh k hk
  rw [hrec.1, hrec.2, hmiss]
  simp [cacheFlagAt, hprev]

/-- An all-miss oracle with entry counts consistent with `envTwoStreams`. -/
def orcAllMiss : IndexOracle :=
  { cache_hit := fun _ => false
    read_result := fun _ => .OLAP_SUCCESS
    parse_result := fun _ => .OLAP_SUCCESS
    entry_count := fun _ => 4 }

/-- The state an all-miss caching-disabled run of `_load_index` over
`envTwoStreams` produces. -/
def stAllMiss : LoadIndexState :=
  { block_count := 4
    is_using_cache := false
    processed :=
      [{ stream_index := 0, offset := 500, hit := false,
         inserted := false, engine_owns := true },
       { stream_index := 1, offset := 600, hit := false,
         inserted := false, engine_owns := true }] }

/-- Witness for `load_index_cache_off_no_insert` at concrete inputs (an
all-miss run with caching disabled: the first stream's buffer is not
inserted and stays engine-owned). -/
theorem load_index_cache_off_no_insert_witness :
    (stAllMiss.processed.getD 0 default).inserted = false ∧
    (stAllMiss.processed.getD 0 default).engine_owns = true :=
  load_index_cache_off_no_insert envTwoStreams orcAllMiss stAllMiss rfl 0
    (by decide) (by decide) (by decide)

/-! ### Iterating the scan -/

theorem runScan_succ_back (env : ScanEnv) :
    ∀ (n : Nat) (s : ScanState),
      runScan env (n + 1) s = (get_block env (runScan env n s)).2 := by
  intro n
  induction n with
  | zero => intro s; rfl
  | succ m ih =>
    intro s
    have h1 : runScan env (m + 1 + 1) s =
        runScan env (m + 1) (get_block env s).2 := rfl
    rw [h1, ih (get_block env s).2]
    rfl

theorem runScan_mid (env : ScanEnv)
    (hseek : ∀ cid b, env.seek_result cid b = .OLAP_SUCCESS)
    (hload : ∀ cid b, env.next_vector_result cid b = .OLAP_SUCCESS)
    (hlim : env.batch_limit = env.num_rows_in_block) :
    ∀ (j k : Nat), (k : Int) + (j : Int) = (env.block_count : Int) - 1 →
      runScan env j (midState env k) = midState env (k + j) := by
  intro j
  induction j with
  | zero =>
    intro k _
    rfl
  | succ n ih =>
    intro k h2
    have hk2 : (k : Int) < (env.block_count : Int) - 1 := by push_cast at h2 ⊢; omega
    have hstep : runScan env (n + 1) (midState env k) =
        runScan env n (get_block env (midState env k)).2 := rfl
    rw [hstep, get_block_mid env k hseek hload hlim hk2,
      ih (k + 1) (by push_cast at h2 ⊢; omega)]
    congr 1
    omega

/-! ### C5: per-column seek failures inside get_block -/

/-- A single-column scan environment in which every column seek fails with a
status that is neither success nor column-stream-EOF, while decoding
succeeds. -/
def envSeekFail : ScanEnv :=
  { block_count := 4
    num_rows_in_block := 1024
    number_of_rows := 4096
    batch_limit := 1024
    columns := [0]
    has_column_index := fun _ => true
    seek_result := fun _ _ => .OLAP_ERR_OTHER
    next_vector_result := fun _ _ => .OLAP_SUCCESS }

/-- The same environment with the seeks failing as column-stream-EOF. -/
def envSeekEof : ScanEnv :=
  { envSeekFail with seek_result := fun _ _ => .OLAP_ERR_COLUMN_STREAM_EOF }

/-- C5, evaluated at the failing input: `_seek_to_block_directly` does map a
non-EOF per-column seek failure to the fatal `OLAP_ERR_COLUMN_SEEK_ERROR`
(and end-of-stream to the distinct non-fatal `OLAP_ERR_DATA_EOF`), but
`get_block` discards that status (segment_reader.cpp:293): on the very same
state it returns `OLAP_SUCCESS` and a loaded batch of 1024 rows instead of
propagating the `ColumnSeekError`. -/
theorem get_block_discards_seek_error :
    (_seek_to_block_directly envSeekFail 0 [0] (scanStart envSeekFail 0)).1 =
      .OLAP_ERR_COLUMN_SEEK_ERROR ∧
    (_seek_to_block_directly envSeekEof 0 [0] (scanStart envSeekEof 0)).1 =
      .OLAP_ERR_DATA_EOF ∧
    (get_block envSeekFail (scanStart envSeekFail 0)).1.status =
      .OLAP_SUCCESS ∧
    (get_block envSeekFail (scanStart envSeekFail 0)).1.batch.map
        BatchResult.size = some 1024 :=
  ⟨rfl, rfl, rfl, rfl⟩

/-! ### C8: rows loaded per call and over a full scan -/

/-- C8: for a segment with `block_count = ⌈number_of_rows /
num_rows_in_block⌉` blocks and a batch capacity of one full block, a
successful `get_block` call positioned on the final block loads exactly
`number_of_rows - num_rows_in_block * (block_count - 1)` rows; a full
unfiltered scan (`seek_to_block(0, block_count - 1, true)` followed by
`block_count` calls) accounts exactly `number_of_rows` rows in
`raw_rows_read` and ends at EOF; and the final call's batch holds
`number_of_rows mod num_rows_in_block` rows, or a full block when evenly
divisible. -/
theorem get_block_row_accounting (env : ScanEnv) (c0 : Int)
    (hbs : 0 < env.num_rows_in_block)
    (htot : 0 < env.number_of_rows)
    (hlim : env.batch_limit = env.num_rows_in_block)
    (hlo : env.num_rows_in_block * ((env.block_count : Int) - 1) <
      env.number_of_rows)
    (hhi : env.number_of_rows ≤ env.num_rows_in_block * (env.block_count : Int))
    (hseek : ∀ cid b, env.seek_result cid b = .OLAP_SUCCESS)
    (hload : ∀ cid b, env.next_vector_result cid b = .OLAP_SUCCESS) :
    (∀ s : ScanState, s.eof = false →
      s.next_block_id = (env.block_count : Int) - 1 →
      (get_block env s).1.batch.map BatchResult.size =
        some (env.number_of_rows -
          env.num_rows_in_block * ((env.block_count : Int) - 1))) ∧
    ((runScan env env.block_count (scanStart env c0)).raw_rows_read =
      env.number_of_rows ∧
     (runScan env env.block_count (scanStart env c0)).eof = true) ∧
    (get_block env
        (runScan env (env.block_count - 1) (scanStart env c0))).1.batch.map
        BatchResult.size =
      some (if env.number_of_rows % env.num_rows_in_block = 0 then
              env.num_rows_in_block
            else env.number_of_rows % env.num_rows_in_block) := by
  have hcpos : 1 ≤ env.block_count := by
    by_contra hc
    have hc0 : env.block_count = 0 := by omega
    rw [hc0] at hhi
    push_cast at hhi
    linarith
  have hmod : env.number_of_rows -
      env.num_rows_in_block * ((env.block_count : Int) - 1) =
      if env.number_of_rows % env.num_rows_in_block = 0 then
        env.num_rows_in_block
      else env.number_of_rows % env.num_rows_in_block :=
    final_rows_eq_mod hbs hlo hhi
  refine ⟨?_, ?_⟩
  · intro s hseof hsnext
    rw [get_block_size env s hseof hseek hload]
    unfold gbSize
    rw [hsnext, if_pos rfl, hlim]
    congr 1
    have hexp : env.num_rows_in_block * (env.block_count : Int) -
        env.num_rows_in_block * ((env.block_count : Int) - 1) =
        env.num_rows_in_block := by ring
    exact min_eq_right (by linarith)
  by_cases hc1 : env.block_count = 1
  · have hrun0 : runScan env (env.block_count - 1) (scanStart env c0) =
        scanStart env c0 := by
      rw [hc1]
      rfl
    have hrun1 : runScan env env.block_count (scanStart env c0) =
        (get_block env (scanStart env c0)).2 := by
      rw [hc1]
      rfl
    have hsingle := get_block_single env c0 hseek hload hlim hhi hc1
    refine ⟨⟨?_, ?_⟩, ?_⟩
    · rw [hrun1]; exact hsingle.2.1
    · rw [hrun1]; exact hsingle.2.2
    · rw [hrun0, hsingle.1, ← hmod]
      rw [hc1]
      push_cast
      rw [mul_zero, sub_zero]
  · have hc2 : 2 ≤ env.block_count := by omega
    have hmid : runScan env (env.block_count - 1) (scanStart env c0) =
        midState env (env.block_count - 1) := by
      have hpeel : runScan env (env.block_count - 1) (scanStart env c0) =
          runScan env (env.block_count - 2) (get_block env (scanStart env c0)).2 := by
        have hsplit : env.block_count - 1 = (env.block_count - 2) + 1 := by omega
        rw [hsplit]
        rfl
      rw [hpeel, get_block_scanStart env c0 hseek hload hlim hc2,
        runScan_mid env hseek hload hlim (env.block_count - 2) 1
          (by push_cast [Nat.cast_sub (by omega : 2 ≤ env.block_count)]; ring)]
      congr 1
      omega
    have hlast := get_block_last env hseek hload hlim hhi hc2
    have hback : runScan env env.block_count (scanStart env c0) =
        (get_block env (runScan env (env.block_count - 1) (scanStart env c0))).2 := by
      conv_lhs => rw [show env.block_count = (env.block_count - 1) + 1 from by omega]
      rw [runScan_succ_back]
    refine ⟨⟨?_, ?_⟩, ?_⟩
    · rw [hback, hmid]; exact hlast.2.1
    · rw [hback, hmid]; exact hlast.2.2
    · rw [hmid, hlast.1, ← hmod]

/-- Witness environment for the scan accounting: 4 blocks of 1024 rows
capacity over 4000 rows (final block holds 928 = 4000 mod 1024 rows). -/
def envScanW : ScanEnv :=
  { block_count := 4
    num_rows_in_block := 1024
    number_of_rows := 4000
    batch_limit := 1024
    columns := [0]
    has_column_index := fun _ => true
    seek_result := fun _ _ => .OLAP_SUCCESS
    next_vector_result := fun _ _ => .OLAP_SUCCESS }

/-- Witness for `get_block_row_accounting` at concrete inputs. -/
theorem get_block_row_accounting_witness :
    ((get_block envScanW (midState envScanW 3)).1.batch.map BatchResult.size =
      some (envScanW.number_of_rows -
        envScanW.num_rows_in_block * ((envScanW.block_count : Int) - 1))) ∧
    ((runScan envScanW envScanW.block_count (scanStart envScanW 0)).raw_rows_read =
      envScanW.number_of_rows ∧
     (runScan envScanW envScanW.block_count (scanStart envScanW 0)).eof = true) ∧
    (get_block envScanW
        (runScan envScanW (envScanW.block_count - 1)
          (scanStart envScanW 0))).1.batch.map BatchResult.size =
      some (if envScanW.number_of_rows % envScanW.num_rows_in_block = 0 then
              envScanW.num_rows_in_block
            else envScanW.number_of_rows % envScanW.num_rows_in_block) :=
  ⟨(get_block_row_accounting envScanW 0 (by decide) (by decide) rfl (by decide)
      (by decide) (fun _ _ => rfl) (fun _ _ => rfl)).1 (midState envScanW 3) rfl
      (by decide),
   (get_block_row_accounting envScanW 0 (by decide) (by decide) rfl (by decide)
      (by decide) (fun _ _ => rfl) (fun _ _ => rfl)).2.1,
   (get_block_row_accounting envScanW 0 (by decide) (by decide) rfl (by decide)
      (by decide) (fun _ _ => rfl) (fun _ _ => rfl)).2.2⟩

end SegmentReader
